import Mathlib

/-!
Shallow embedding of the `ipai_mcp_finance` Odoo addon (finance tool execution
engine): trial-balance aggregation, journal-entry validation, withholding-tax
extraction, BIR 2307 fixed-width encoding, and the tool execution/audit
boundary.  Monetary amounts are embedded as exact rationals (`ℚ`) standing for
the Python floats; strings are processed through structural `List Char`
functions mirroring the Python string operations used by the source.
-/

deriving instance DecidableEq for Except

namespace McpFinance

/-- Spaces of a given length (Python `' ' * k`). -/
def spaces (k : Nat) : String := String.mk (List.replicate k ' ')

/-- Zeros of a given length (Python `'0' * k`). -/
def zeros (k : Nat) : String := String.mk (List.replicate k '0')

/-- Python `s.ljust(w)` / a left-justified minimum-width `f"{s:ws}"` field:
pad on the right with spaces up to width `w`, never truncate. -/
def pyLjust (s : String) (w : Nat) : String := s ++ spaces (w - s.length)

/-- Python slicing `s[:n]`: keep the first `n` characters. -/
def pyTake (s : String) (n : Nat) : String := String.mk (s.data.take n)

/-- Zero-pad a digit string on the left to minimum width `w`
(the padding part of Python `f"{n:0wd}"`). -/
def zeroPadLeft (w : Nat) (s : String) : String := zeros (w - s.length) ++ s

/-- The character of one decimal digit. -/
def decDigitChar : Nat → Char
  | 0 => '0'
  | 1 => '1'
  | 2 => '2'
  | 3 => '3'
  | 4 => '4'
  | 5 => '5'
  | 6 => '6'
  | 7 => '7'
  | 8 => '8'
  | 9 => '9'
  | _ => '*'

/-- Fuel-driven big-endian decimal digit list of a natural number. -/
def natDecAux : Nat → Nat → List Char
  | 0, _ => []
  | fuel+1, n =>
    if n < 10 then [decDigitChar n]
    else natDecAux fuel (n / 10) ++ [decDigitChar (n % 10)]

/-- Python `str(n)` for a natural number (decimal digits). -/
def natDec (n : Nat) : String := String.mk (natDecAux (n + 1) n)

/-- Python `f"{n:0wd}"` for a natural number: decimal digits, zero-padded to
minimum width `w`. -/
def pyZeroPadNat (w : Nat) (n : Nat) : String := zeroPadLeft w (natDec n)

/-- Python `s.upper()` (ASCII, the only case that occurs in the data). -/
def upperStr (s : String) : String := String.mk (s.data.map Char.toUpper)

/-- Python `s.lower()` (ASCII, the only case that occurs in the data). -/
def lowerStr (s : String) : String := String.mk (s.data.map Char.toLower)

/-- Remove every occurrence of a character (Python `s.replace(c, '')`). -/
def removeChar (c : Char) (s : String) : String :=
  String.mk (s.data.filter (fun x => x ≠ c))

/-- Substring test on character lists (helper for Python `needle in haystack`). -/
def containsChars (needle : List Char) : List Char → Bool
  | [] => needle.isEmpty
  | c :: rest => needle.isPrefixOf (c :: rest) || containsChars needle rest

/-- Python `needle in haystack` on strings. -/
def containsSub (haystack needle : String) : Bool :=
  containsChars needle.data haystack.data

/-- Fuel-driven worker for Python `s.split(sep)` with a non-empty separator:
split at each left-most, non-overlapping occurrence of `sep`. -/
def splitChars (sep : List Char) : Nat → List Char → List (List Char)
  | _, [] => [[]]
  | 0, xs => [xs]
  | fuel+1, c :: rest =>
    if sep.isPrefixOf (c :: rest) then
      [] :: splitChars sep fuel (List.drop (sep.length - 1) rest)
    else
      match splitChars sep fuel rest with
      | [] => [[c]]
      | p :: ps => (c :: p) :: ps

/-- Python `s.split(sep)` for a non-empty separator. -/
def pySplit (s sep : String) : List String :=
  (splitChars sep.data s.data.length s.data).map String.mk

/-- Accumulating decimal parser over characters. -/
def parseDigitsAux : List Char → Nat → Option Nat
  | [], acc => some acc
  | c :: rest, acc =>
    if 48 ≤ c.toNat ∧ c.toNat ≤ 57 then
      parseDigitsAux rest (acc * 10 + (c.toNat - 48))
    else none

/-- Python `int(s)` restricted to non-negative decimal literals, the only
shapes that reach it in this code base (`none` = `ValueError`). -/
def pyInt (s : String) : Option Nat :=
  match s.data with
  | [] => none
  | cs => parseDigitsAux cs 0

/-- Python `', '.join(parts)` (generalized separator). -/
def joinSep (sep : String) : List String → String
  | [] => ""
  | [s] => s
  | s :: rest => s ++ sep ++ joinSep sep rest

/-- Python truthiness of an optional string (`None` and `''` are falsy). -/
def strTruthy : Option String → Bool
  | none => false
  | some s => s ≠ ""

/-- Odoo/Python `x or ''` for an optional string field. -/
def orEmpty : Option String → String
  | none => ""
  | some s => s

/-- Calendar date, mirroring Python `datetime.date`. -/
structure Date where
  year : Nat
  month : Nat
  day : Nat
deriving DecidableEq, Repr

/-- Order key: comparing keys agrees with Python `date` comparison
(lexicographic on year, month, day) for calendar dates. -/
def Date.key (d : Date) : Nat := d.year * 10000 + d.month * 100 + d.day

/-- Python `str(date)`: ISO `YYYY-MM-DD`, zero-padded. -/
def Date.iso (d : Date) : String :=
  zeroPadLeft 4 (natDec d.year) ++ "-" ++ zeroPadLeft 2 (natDec d.month)
    ++ "-" ++ zeroPadLeft 2 (natDec d.day)

/-- Gregorian leap-year rule, as in Python's `calendar` module. -/
def isLeapYear (y : Nat) : Bool :=
  y % 4 == 0 && (y % 100 != 0 || y % 400 == 0)

/-- Last day of a month (`calendar.monthrange(y, m)[1]`); `0` for an illegal
month, which never occurs on the paths embedded here. -/
def monthLastDay (y m : Nat) : Nat :=
  match m with
  | 1 => 31
  | 2 => if isLeapYear y then 29 else 28
  | 3 => 31
  | 4 => 30
  | 5 => 31
  | 6 => 30
  | 7 => 31
  | 8 => 31
  | 9 => 30
  | 10 => 31
  | 11 => 30
  | 12 => 31
  | _ => 0

/-- The exception classes raised by the embedded code
(`odoo.exceptions.UserError`, `AccessError`, `ValidationError`, plus plain
Python errors such as `ValueError`). -/
inductive Exc where
  | userError (msg : String)
  | accessError (msg : String)
  | validationError (msg : String)
  | pyError (ty : String) (msg : String)
deriving DecidableEq, Repr

/-- Python `str(e)`. -/
def Exc.message : Exc → String
  | .userError m => m
  | .accessError m => m
  | .validationError m => m
  | .pyError _ m => m

/-- Python `type(e).__name__`. -/
def Exc.typeName : Exc → String
  | .userError _ => "UserError"
  | .accessError _ => "AccessError"
  | .validationError _ => "ValidationError"
  | .pyError ty _ => ty

/-- Per-company `mcp.finance.config` record (fields used by the tools).
`maxJeAmount` is the Monetary field `max_je_amount`, whose help text reads
"JE amounts above this require escalated approval (0 = always require)". -/
structure Config where
  enableTrialBalance : Bool := true
  enableJournalEntry : Bool := false
  enableBirTools : Bool := true
  requireApprovalJe : Bool := true
  maxJeAmount : ℚ := 0
  logAllQueries : Bool := true

/-- `res.company` record: identifier, display name, VAT/TIN and the two
period-lock dates (`False`/unset modelled as `none`). -/
structure Company where
  id : Nat
  name : String := ""
  vat : Option String := none
  fiscalyearLockDate : Option Date := none
  periodLockDate : Option Date := none

/-- `account.account` record (fields read by the tools). -/
structure Account where
  id : Nat
  code : String := ""
  name : String := ""
  accountType : String := ""
  internalGroup : String := ""
  groupId : Option Nat := none
  groupName : Option String := none
  companyIds : List Nat := []
deriving DecidableEq, Repr

/-- `account.journal` record (fields read by the journal-entry tool). -/
structure JournalRec where
  id : Nat
  code : String
  companyId : Nat
  name : String := ""
deriving DecidableEq, Repr

/-- `res.partner` record (fields read by the BIR tool). -/
structure Partner where
  vat : Option String := none
  name : Option String := none
  street : Option String := none
  street2 : Option String := none
  city : Option String := none
  stateName : Option String := none
  zip : Option String := none
deriving DecidableEq, Repr

/-- `account.tax` descriptor reachable through a move line's `tax_line_id`
(`amount` is the configured rate; falsy char fields modelled as `none`). -/
structure TaxRec where
  name : Option String := none
  description : Option String := none
  amount : ℚ := 0
deriving DecidableEq, Repr

/-- One `account.move.line` of a vendor bill (`tax_line_id` is `none` for
non-tax lines, mirroring the falsy recordset). -/
structure BillLine where
  taxLine : Option TaxRec := none
  balance : ℚ := 0
deriving DecidableEq, Repr

/-- A vendor bill (`account.move`) together with its partner record. -/
structure Bill where
  companyId : Nat
  moveType : String := "in_invoice"
  state : String := "posted"
  invoiceDate : Date
  partnerId : Nat := 0
  partner : Partner := {}
  name : String := ""
  lines : List BillLine := []
deriving DecidableEq, Repr

/-- States of an `mcp.finance.tool.execution` audit record. -/
inductive LogState where
  | pending
  | approved
  | executed
  | rejected
  | failed
deriving DecidableEq, Repr

/-- An `mcp.finance.tool.execution` audit record.  The serialized
parameter/result payloads and the acting-user field are not referenced by any
claim and are omitted from the embedding. -/
structure ExecLogRec where
  toolName : String
  companyId : Nat
  errorMessage : Option String := none
  executionTimeMs : Nat := 0
  state : LogState := .executed
deriving DecidableEq, Repr

/-- Normalized journal-entry line values built by `_build_move_lines`. -/
structure MoveLine where
  accountId : Nat
  name : String
  debit : ℚ
  credit : ℚ
  partnerId : Option Nat := none
  analyticDistribution : Option (List (String × ℚ)) := none
deriving DecidableEq, Repr

/-- A created `account.move` (fields the journal-entry tool sets or reads).
Sequence naming happens at posting time in the excluded persistence layer, so
a draft move keeps the placeholder name `/`. -/
structure MoveRec where
  id : Nat
  name : String := "/"
  companyId : Nat
  journalId : Nat
  date : Date
  ref : String
  lines : List MoveLine
  state : String := "draft"
  moveType : String := "entry"
deriving DecidableEq, Repr

/-- Mutable store touched by the tools: created moves and the append-only
execution audit log. -/
structure World where
  moves : List MoveRec := []
  logs : List ExecLogRec := []
  nextMoveId : Nat := 1

/-- Reference to a partner in a journal-entry line (integer id or free text). -/
inductive PartnerRef where
  | byId (id : Nat)
  | byRef (r : String)
deriving DecidableEq, Repr

/-- Reference to an account in a journal-entry line (integer id or code). -/
inductive AccountRef where
  | byId (id : Nat)
  | byCode (code : String)
deriving DecidableEq, Repr

/-- Aggregated posted-ledger amounts of one account over the queried range
(one row of the SQL aggregation in `_get_trial_balance`). -/
structure Amounts where
  debit : ℚ
  credit : ℚ
  balance : ℚ
deriving DecidableEq, Repr

/-- Read-only environment the tools run against: the ledger-store records,
per-company configuration, the acting user's privilege, the registered tool
names, and the external xlsx encoder. -/
structure Env where
  currentCompanyId : Nat
  companies : List Company := []
  configOf : Nat → Config := fun _ => {}
  accounts : List Account := []
  journals : List JournalRec := []
  bills : List Bill := []
  userIsAccountManager : Bool := false
  toolRegistry : List String := []
  resolvePartner : PartnerRef → Option Nat := fun _ => none
  xlsxAvailable : Bool := true
  today : Date := ⟨2026, 1, 1⟩
  tbTotals : Nat → Date → Date → Nat → Option Amounts := fun _ _ _ _ => none

/-- Python truthiness of the optional `error` argument of `log_execution`
(`None` and `''` are falsy). -/
def errTruthy : Option String → Bool
  | none => false
  | some s => s ≠ ""

/-- `McpFinanceToolExecution.log_execution`: look the tool up in the registry
(unknown tool → only a warning, no record) and append an audit record whose
state is forced to `failed` whenever a truthy error is passed. -/
def logExecution (registry : List String) (w : World) (toolName : String)
    (companyId : Nat) (error : Option String) (executionTimeMs : Nat)
    (state : LogState) : World :=
  if toolName ∈ registry then
    let rec1 : ExecLogRec :=
      { toolName := toolName
        companyId := companyId
        errorMessage := error
        executionTimeMs := executionTimeMs
        state := if errTruthy error then .failed else state }
    { w with logs := w.logs ++ [rec1] }
  else
    w

/-- Python `params.get('company_id') or self.env.company.id` (`0` and `None`
are falsy and fall back to the current company). -/
def resolveCompanyId (env : Env) : Option Nat → Nat
  | none => env.currentCompanyId
  | some n => if n = 0 then env.currentCompanyId else n

/-- Rounding of an exact amount to hundredths, as Python's 2-decimal float
formatting does (the tie at an exact half-hundredth, where binary floats round
to even, is abstracted to Mathlib's `round`). -/
def centsOf (q : ℚ) : ℤ := round (q * 100)

/-- Python `f"{x:.2f}"` on an exact amount. -/
def fmt2 (q : ℚ) : String :=
  let c := centsOf q
  let sign := if c < 0 then "-" else ""
  let n := c.natAbs
  sign ++ natDec (n / 100) ++ "." ++ zeroPadLeft 2 (natDec (n % 100))

/-- `BALANCE_TOLERANCE` from `journal_entry.py`. -/
def BALANCE_TOLERANCE : ℚ := 1/100

/-- Outcome of Python `datetime.strptime(s, '%Y-%m-%d')` on the raw `date`
parameter: a well-formed string carries its parsed date, anything else only
its text. -/
inductive DateParam where
  | wellFormed (d : Date)
  | malformed (s : String)
deriving DecidableEq, Repr

/-- `JournalEntryTool._parse_date`: falsy input gives `None`, a malformed
string raises `UserError`. -/
def parseDate : Option DateParam → Except Exc (Option Date)
  | none => .ok none
  | some (.wellFormed d) => .ok (some d)
  | some (.malformed s) =>
    .error (.userError ("Invalid date format: " ++ s ++ ". Use YYYY-MM-DD"))

/-- Whether the company's fiscal-year (hard) lock applies to a date. -/
def hardLocked (c : Company) (d : Date) : Bool :=
  match c.fiscalyearLockDate with
  | some l => d.key ≤ l.key
  | none => false

/-- Whether the company's period (soft) lock applies to a date. -/
def softLocked (c : Company) (d : Date) : Bool :=
  match c.periodLockDate with
  | some l => d.key ≤ l.key
  | none => false

/-- `JournalEntryTool._check_period_lock`: the fiscal-year lock rejects every
user, the period lock only users outside `account.group_account_manager`.
Both rejections are raised as `UserError`. -/
def checkPeriodLock (c : Company) (isManager : Bool) (jeDate : Date) :
    Except Exc Unit :=
  match c.fiscalyearLockDate with
  | some l =>
    if jeDate.key ≤ l.key then
      .error (.userError ("Period is locked. Fiscal year lock date: " ++ l.iso))
    else
      match c.periodLockDate with
      | some p =>
        if jeDate.key ≤ p.key ∧ isManager = false then
          .error (.userError
            ("Period is locked for non-advisers. Lock date: " ++ p.iso))
        else .ok ()
      | none => .ok ()
  | none =>
    match c.periodLockDate with
    | some p =>
      if jeDate.key ≤ p.key ∧ isManager = false then
        .error (.userError
          ("Period is locked for non-advisers. Lock date: " ++ p.iso))
      else .ok ()
    | none => .ok ()

/-- An input journal-entry line as passed in `params['lines']`.  The amounts
stand for `float(line.get('debit', 0))` / `float(line.get('credit', 0))`:
an absent key is the value `0`. -/
structure JeLine where
  account : Option AccountRef := none
  debit : ℚ := 0
  credit : ℚ := 0
  name : Option String := none
  label : Option String := none
  partner : Option PartnerRef := none
  analyticAccount : Option Nat := none
  analyticDist : Option (List (String × ℚ)) := none
deriving Repr

/-- Python truthiness of an account reference (`0` and `''` are falsy). -/
def accountRefTruthy : AccountRef → Bool
  | .byId n => n ≠ 0
  | .byCode c => c ≠ ""

/-- Text of an account reference in an error message (`f"{account_ref}"`). -/
def accountRefStr : AccountRef → String
  | .byId n => natDec n
  | .byCode c => c

/-- Account resolution of `_build_move_lines`: an integer is `browse`d by id
(no company filter), a string is searched by code within the company. -/
def resolveAccount (env : Env) (companyId : Nat) : AccountRef → Option Account
  | .byId n => env.accounts.find? (fun a => a.id = n)
  | .byCode c =>
    env.accounts.find? (fun a => a.code = c ∧ companyId ∈ a.companyIds)

/-- Line label: `line.get('name') or line.get('label') or '/'`. -/
def lineLabel (l : JeLine) : String :=
  if strTruthy l.name then orEmpty l.name
  else if strTruthy l.label then orEmpty l.label
  else "/"

/-- Analytic distribution: a dict is taken as is, an integer id becomes
`{str(id): 100}`. -/
def analyticOf (l : JeLine) : Option (List (String × ℚ)) :=
  match l.analyticDist with
  | some d => some d
  | none =>
    match l.analyticAccount with
    | some n => some [(natDec n, 100)]
    | none => none

/-- `JournalEntryTool._build_move_lines` on the line at (0-based) index `i`
and the remaining lines: resolve the account, then reject a negative amount,
both sides positive, or both sides zero, in that order. -/
def buildMoveLines (env : Env) (companyId : Nat) :
    Nat → List JeLine → Except Exc (List MoveLine)
  | _, [] => .ok []
  | i, line :: rest =>
    match line.account with
    | none =>
      .error (.userError ("Line " ++ natDec (i+1) ++ ": account is required"))
    | some aref =>
      if accountRefTruthy aref = false then
        .error (.userError ("Line " ++ natDec (i+1) ++ ": account is required"))
      else
        match resolveAccount env companyId aref with
        | none =>
          .error (.userError ("Line " ++ natDec (i+1) ++ ": account not found: "
            ++ accountRefStr aref))
        | some account =>
          if line.debit < 0 ∨ line.credit < 0 then
            .error (.userError ("Line " ++ natDec (i+1)
              ++ ": debit and credit must be non-negative"))
          else if 0 < line.debit ∧ 0 < line.credit then
            .error (.userError ("Line " ++ natDec (i+1)
              ++ ": cannot have both debit and credit on same line"))
          else if line.debit = 0 ∧ line.credit = 0 then
            .error (.userError ("Line " ++ natDec (i+1)
              ++ ": must have either debit or credit amount"))
          else
            let ml : MoveLine :=
              { accountId := account.id
                name := lineLabel line
                debit := line.debit
                credit := line.credit
                partnerId := line.partner.bind env.resolvePartner
                analyticDistribution := analyticOf line }
            match buildMoveLines env companyId (i+1) rest with
            | .error e => .error e
            | .ok mls => .ok (ml :: mls)

/-- `sum(line.get('debit', 0) for line in move_lines)`. -/
def sumDebit (mls : List MoveLine) : ℚ := (mls.map MoveLine.debit).sum

/-- `sum(line.get('credit', 0) for line in move_lines)`. -/
def sumCredit (mls : List MoveLine) : ℚ := (mls.map MoveLine.credit).sum

/-- Text of the `ValidationError` raised by `_validate_balance`, reporting
both totals and the difference. -/
def unbalancedMsg (totalDebit totalCredit diff : ℚ) : String :=
  "Journal entry is not balanced. Total debit: " ++ fmt2 totalDebit
    ++ ", Total credit: " ++ fmt2 totalCredit
    ++ ", Difference: " ++ fmt2 diff

/-- `JournalEntryTool._validate_balance`. -/
def validateBalance (mls : List MoveLine) : Except Exc Unit :=
  let totalDebit := sumDebit mls
  let totalCredit := sumCredit mls
  let diff := |totalDebit - totalCredit|
  if BALANCE_TOLERANCE < diff then
    .error (.validationError (unbalancedMsg totalDebit totalCredit diff))
  else .ok ()

/-- Parameters of `create_journal_entry` (typed view of the params dict). -/
structure JeParams where
  companyId : Option Nat := none
  journalCode : Option String := none
  date : Option DateParam := none
  ref : Option String := none
  lines : Option (List JeLine) := none
  autoPost : Bool := false

/-- Everything the validation phase of `JournalEntryTool.execute` computes
before any record is created. -/
structure ValidatedJe where
  companyId : Nat
  company : Company
  journal : JournalRec
  jeDate : Date
  refText : String
  moveLines : List MoveLine
  totalAmount : ℚ
  requiresApproval : Bool
  autoPost : Bool

/-- The approval decision of `JournalEntryTool.execute` (lines 121–125):
approval is required when the per-company flag is set, or when the threshold
is strictly positive and the total debit exceeds it.  A threshold of `0`
leaves the amount check inactive. -/
def requiresApprovalCalc (config : Config) (totalAmount : ℚ) : Bool :=
  let ra := false
  let ra := if config.requireApprovalJe then true else ra
  let ra := if 0 < config.maxJeAmount ∧ config.maxJeAmount < totalAmount then true else ra
  ra

/-- Validation phase of `JournalEntryTool.execute` (lines 71–129): parameter
checks, period lock, journal lookup, line building, balance check and the
approval decision, in source order.  No store mutation happens here. -/
def jeValidate (env : Env) (p : JeParams) : Except Exc ValidatedJe :=
  let companyId := resolveCompanyId env p.companyId
  match env.companies.find? (fun c => c.id = companyId) with
  | none => .error (.userError ("Company not found: " ++ natDec companyId))
  | some company =>
    let config := env.configOf companyId
    if config.enableJournalEntry = false then
      .error (.accessError "Journal Entry tool is disabled for this company")
    else if strTruthy p.journalCode = false then
      .error (.userError "journal_code is required")
    else
      match parseDate p.date with
      | .error e => .error e
      | .ok none => .error (.userError "date is required (YYYY-MM-DD)")
      | .ok (some jeDate) =>
        if strTruthy p.ref = false then
          .error (.userError "ref (reference/memo) is required")
        else
          match p.lines with
          | none => .error (.userError "lines is required and must be a list")
          | some [] => .error (.userError "lines is required and must be a list")
          | some lines =>
            match checkPeriodLock company env.userIsAccountManager jeDate with
            | .error e => .error e
            | .ok () =>
              match env.journals.find?
                  (fun j => j.code = orEmpty p.journalCode ∧ j.companyId = companyId) with
              | none =>
                .error (.userError ("Journal not found: " ++ orEmpty p.journalCode))
              | some journal =>
                match buildMoveLines env companyId 0 lines with
                | .error e => .error e
                | .ok moveLines =>
                  match validateBalance moveLines with
                  | .error e => .error e
                  | .ok () =>
                    let totalAmount := sumDebit moveLines
                    let ra := requiresApprovalCalc config totalAmount
                    .ok { companyId := companyId
                          company := company
                          journal := journal
                          jeDate := jeDate
                          refText := orEmpty p.ref
                          moveLines := moveLines
                          totalAmount := totalAmount
                          requiresApproval := ra
                          autoPost := if ra then false else p.autoPost }

/-- Result envelope of a tool call: the typed success payload, or the uniform
failure shape `{'success': False, 'error': ..., 'error_type': ...}`. -/
inductive ToolResult (α : Type) where
  | ok (data : α)
  | err (error : String) (errorType : String)
deriving DecidableEq, Repr

/-- The `success` field of the returned envelope. -/
def ToolResult.success : ToolResult α → Bool
  | .ok _ => true
  | .err _ _ => false

/-- Success payload of `create_journal_entry`. -/
structure JeOk where
  moveId : Nat
  moveName : String
  state : String
  requiresApproval : Bool
  totalAmount : ℚ
  lineCount : Nat
deriving DecidableEq, Repr

/-- Persistence-and-audit phase of `JournalEntryTool.execute` (lines 131–162):
create the move, post it when allowed, and append the audit record. -/
def jeFinish (env : Env) (w : World) (v : ValidatedJe) : JeOk × World :=
  let posted := v.autoPost && !v.requiresApproval
  let move : MoveRec :=
    { id := w.nextMoveId
      name := "/"
      companyId := v.companyId
      journalId := v.journal.id
      date := v.jeDate
      ref := v.refText
      lines := v.moveLines
      state := if posted then "posted" else "draft" }
  let w1 : World :=
    { w with moves := w.moves ++ [move], nextMoveId := w.nextMoveId + 1 }
  let logState : LogState := if v.requiresApproval then .pending else .executed
  let w2 := logExecution env.toolRegistry w1 "create_journal_entry" v.companyId
    none 0 logState
  let okData : JeOk :=
    { moveId := move.id
      moveName := move.name
      state := move.state
      requiresApproval := v.requiresApproval
      totalAmount := v.totalAmount
      lineCount := v.moveLines.length }
  (okData, w2)

/-- `JournalEntryTool.execute`: run the body and catch every failure at the
boundary, appending a failure audit record and returning the uniform failure
envelope. -/
def jeExecute (env : Env) (w : World) (p : JeParams) : ToolResult JeOk × World :=
  match jeValidate env p with
  | .ok v =>
    let (okData, w2) := jeFinish env w v
    (.ok okData, w2)
  | .error e =>
    let w2 := logExecution env.toolRegistry w "create_journal_entry"
      (resolveCompanyId env p.companyId) (some e.message) 0 .executed
    (.err e.message e.typeName, w2)

/-- Text of the `UserError` raised for an unparsable period. -/
def invalidPeriodMsg (period : String) : String :=
  "Invalid period format: " ++ period ++ ". Use YYYY-QN (e.g., 2025-Q4)"

/-- Start and end month of a quarter (`quarter_months` dict); only called
with `1 ≤ q ≤ 4`. -/
def quarterMonths (q : Nat) : Nat × Nat :=
  match q with
  | 1 => (1, 3)
  | 2 => (4, 6)
  | 3 => (7, 9)
  | 4 => (10, 12)
  | _ => (0, 0)

/-- `BirComplianceTool._parse_quarter`: split on `-Q`, parse both parts as
integers, require quarter 1–4, and build the quarter's date range; the end of
quarter 4 is hard-coded to Dec 31, the others use `calendar.monthrange`.
Every failure inside (bad split, bad integer, bad quarter, or a year outside
`datetime.date`'s 1–9999 range) is caught and re-raised as the same
`UserError`. -/
def parseQuarter (period : String) : Except Exc (Date × Date) :=
  match pySplit period "-Q" with
  | [ys, qs] =>
    match pyInt ys, pyInt qs with
    | some y, some q =>
      if q < 1 ∨ 4 < q then .error (.userError (invalidPeriodMsg period))
      else if y < 1 ∨ 9999 < y then .error (.userError (invalidPeriodMsg period))
      else
        let (startMonth, endMonth) := quarterMonths q
        let dateFrom : Date := ⟨y, startMonth, 1⟩
        let dateTo : Date :=
          if endMonth = 12 then ⟨y, 12, 31⟩
          else ⟨y, endMonth, monthLastDay y endMonth⟩
        .ok (dateFrom, dateTo)
    | _, _ => .error (.userError (invalidPeriodMsg period))
  | _ => .error (.userError (invalidPeriodMsg period))

/-- Description-based withholding test of `_get_withholding_data`:
the line has a tax whose truthy description contains `withholding`
case-insensitively. -/
def isDescWht (l : BillLine) : Bool :=
  match l.taxLine with
  | some t =>
    strTruthy t.description &&
      containsSub (lowerStr (orEmpty t.description)) "withholding"
  | none => false

/-- Name-based fallback test of `_get_withholding_data`: the line has a tax
whose truthy name contains `EWT` or `WC` (case-sensitive). -/
def isNameWht (l : BillLine) : Bool :=
  match l.taxLine with
  | some t =>
    strTruthy t.name &&
      (containsSub (orEmpty t.name) "EWT" || containsSub (orEmpty t.name) "WC")
  | none => false

/-- Withholding lines of one bill: all description matches, and only when
there is none, all name-fallback matches. -/
def whtLinesOfBill (b : Bill) : List BillLine :=
  let descLines := b.lines.filter isDescWht
  match descLines with
  | [] => b.lines.filter isNameWht
  | _ => descLines

/-- `BirComplianceTool._get_atc`: ordered keyword matching on the upper-cased
tax name, defaulting to `WC010`. -/
def getAtc (tax : Option TaxRec) : String :=
  match tax with
  | none => "WC010"
  | some t =>
    let name := upperStr (orEmpty t.name)
    if containsSub name "PROFESSIONAL" || containsSub name "WC010" then "WC010"
    else if containsSub name "RENTAL" || containsSub name "WC020" then "WC020"
    else if containsSub name "SERVICE" || containsSub name "WC100" then "WC100"
    else if containsSub name "GOODS" || containsSub name "WC120" then "WC120"
    else "WC010"

/-- `BirComplianceTool._format_address`: join the truthy address parts with
`, ` and keep the first 100 characters. -/
def formatAddress (p : Partner) : String :=
  let parts := [orEmpty p.street, orEmpty p.street2, orEmpty p.city,
    orEmpty p.stateName, orEmpty p.zip]
  pyTake (joinSep ", " (parts.filter (fun s => s ≠ ""))) 100

/-- One extracted withholding record (BIR 2307 row). -/
structure WhtRecord where
  vendorTin : String
  vendorName : String
  vendorAddress : String
  atc : String
  taxRate : ℚ
  baseAmount : ℚ
  taxAmount : ℚ
  billRef : String
  billDate : Date
deriving DecidableEq, Repr

/-- Record built for one withholding line of a bill (`_get_withholding_data`
loop body): rate and amount are absolute values, the base is derived from the
tax amount when the rate is positive. -/
def recordOfLine (b : Bill) (l : BillLine) : WhtRecord :=
  let taxRate : ℚ :=
    match l.taxLine with
    | some t => |t.amount|
    | none => 0
  let taxAmount : ℚ := |l.balance|
  let baseAmount : ℚ := if 0 < taxRate then taxAmount / taxRate * 100 else 0
  { vendorTin := orEmpty b.partner.vat
    vendorName := orEmpty b.partner.name
    vendorAddress := formatAddress b.partner
    atc := getAtc l.taxLine
    taxRate := taxRate
    baseAmount := baseAmount
    taxAmount := taxAmount
    billRef := b.name
    billDate := b.invoiceDate }

/-- Bill search domain of `_get_withholding_data` (posted vendor bills of the
company in the date range, optionally restricted to a truthy vendor list). -/
def billInDomain (companyId : Nat) (dateFrom dateTo : Date)
    (vendorIds : Option (List Nat)) (b : Bill) : Bool :=
  b.companyId = companyId && b.moveType = "in_invoice" && b.state = "posted" &&
    dateFrom.key ≤ b.invoiceDate.key && b.invoiceDate.key ≤ dateTo.key &&
    (match vendorIds with
     | some (v :: vs) => b.partnerId ∈ v :: vs
     | _ => true)

/-- Records of all withholding lines of a list of bills, in bill order. -/
def gatherRecords : List Bill → List WhtRecord
  | [] => []
  | b :: rest => (whtLinesOfBill b).map (recordOfLine b) ++ gatherRecords rest

/-- Extraction result: records plus the accumulated totals. -/
structure WhtData where
  records : List WhtRecord
  totalBase : ℚ
  totalTax : ℚ
deriving DecidableEq, Repr

/-- `BirComplianceTool._get_withholding_data`. -/
def getWithholdingData (env : Env) (companyId : Nat) (dateFrom dateTo : Date)
    (vendorIds : Option (List Nat)) : WhtData :=
  let records :=
    gatherRecords (env.bills.filter (billInDomain companyId dateFrom dateTo vendorIds))
  { records := records
    totalBase := (records.map WhtRecord.baseAmount).sum
    totalTax := (records.map WhtRecord.taxAmount).sum }

/-- Python `f"{x:014.2f}"` on an exact amount: two decimals, zero-padded to an
overall minimum width of 14 (sign first for negatives). -/
def pyFmt014_2 (q : ℚ) : String :=
  let c := centsOf q
  let sign := if c < 0 then "-" else ""
  let n := c.natAbs
  let body := natDec (n / 100) ++ "." ++ zeroPadLeft 2 (natDec (n % 100))
  sign ++ zeroPadLeft (14 - sign.length) body

/-- Python `f"{x:05.2f}"` on an exact rate. -/
def pyFmt05_2 (q : ℚ) : String :=
  let c := centsOf q
  let sign := if c < 0 then "-" else ""
  let n := c.natAbs
  let body := natDec (n / 100) ++ "." ++ zeroPadLeft 2 (natDec (n % 100))
  sign ++ zeroPadLeft (5 - sign.length) body

/-- An amount field of the DAT line: `f"{record[...]:014.2f}"` with the
decimal point removed, laid into a left-justified minimum-width-14 field. -/
def datAmountField (q : ℚ) : String :=
  pyLjust (removeChar '.' (pyFmt014_2 q)) 14

/-- The TIN value of the DAT line: dashes stripped, first 9 characters,
right-padded with spaces to 9. -/
def datTin (vendorTin : String) : String :=
  pyLjust (pyTake (removeChar '-' vendorTin) 9) 9

/-- One DAT record line of `_generate_dat`: the ten fields concatenated with
no delimiter. -/
def encodeDatLine (returningPeriod : String) (seq : Nat) (r : WhtRecord) :
    String :=
  pyLjust returningPeriod 6
    ++ pyZeroPadNat 10 seq
    ++ pyLjust (datTin r.vendorTin) 9
    ++ pyLjust "0000" 4
    ++ pyLjust (pyTake r.vendorName 50) 50
    ++ pyLjust (pyTake r.vendorAddress 100) 100
    ++ pyLjust r.atc 5
    ++ pyFmt05_2 r.taxRate
    ++ datAmountField r.baseAmount
    ++ datAmountField r.taxAmount

/-- DAT lines for the records, numbered from 1 (`enumerate(records, 1)`). -/
def encodeDatLines (returningPeriod : String) (seq : Nat) :
    List WhtRecord → List String
  | [] => []
  | r :: rest =>
    encodeDatLine returningPeriod seq r
      :: encodeDatLines returningPeriod (seq + 1) rest

/-- `BirComplianceTool._generate_dat`: re-split the period, compute the
`MMYYYY` header (quarter-end month, zero-padded, then the year text), encode
every record and join with CRLF.  A failure here (impossible after
`_parse_quarter` accepted the same string) propagates as a Python
`ValueError`. -/
def generateDat (data : WhtData) (period : String) (company : Company) :
    Except Exc (String × String) :=
  match pySplit period "-Q" with
  | [ys, qs] =>
    match pyInt qs with
    | some q =>
      let returningPeriod := pyZeroPadNat 2 (q * 3) ++ ys
      let content := joinSep "\r\n" (encodeDatLines returningPeriod 1 data.records)
      let filename := "BIR2307_"
        ++ (if strTruthy company.vat then orEmpty company.vat else "TIN")
        ++ "_" ++ period ++ ".dat"
      .ok (content, filename)
    | none =>
      .error (.pyError "ValueError"
        ("invalid literal for int() with base 10: " ++ qs))
  | _ =>
    .error (.pyError "ValueError" "could not unpack period")

/-- Parameters of `generate_bir_2307` (typed view of the params dict). -/
structure BirParams where
  companyId : Option Nat := none
  period : Option String := none
  vendorIds : Option (List Nat) := none
  outputFormat : Option String := none

/-- Success payload of `generate_bir_2307`.  `fileContent` keeps the raw
bytes; the base64 transport encoding is invertible and not modelled. -/
structure BirOk where
  fileContent : String
  filename : String
  recordCount : Nat
  totalBase : ℚ
  totalTax : ℚ
deriving DecidableEq, Repr

/-- Body of `BirComplianceTool.execute` (lines 75–145): checks, period
parsing, extraction and encoding.  The xlsx branch needs the external
`xlsxwriter` library (its absence raises `UserError`); its binary output is
the collaborator's and is abstracted to a fixed placeholder.  The pdf branch
falls back to xlsx. -/
def birValidate (env : Env) (p : BirParams) : Except Exc (BirOk × Nat) :=
  let companyId := resolveCompanyId env p.companyId
  match env.companies.find? (fun c => c.id = companyId) with
  | none => .error (.userError ("Company not found: " ++ natDec companyId))
  | some company =>
    let config := env.configOf companyId
    if config.enableBirTools = false then
      .error (.accessError "BIR Compliance tools are disabled for this company")
    else if strTruthy p.period = false then
      .error (.userError "period is required (YYYY-QN format, e.g., 2025-Q4)")
    else
      let period := orEmpty p.period
      match parseQuarter period with
      | .error e => .error e
      | .ok (dateFrom, dateTo) =>
        let outputFormat := lowerStr (match p.outputFormat with
          | some s => s
          | none => "dat")
        if (outputFormat = "dat" ∨ outputFormat = "xlsx" ∨ outputFormat = "pdf")
            = false then
          .error (.userError ("Invalid output_format: " ++ outputFormat
            ++ ". Use dat, xlsx, or pdf"))
        else
          let data := getWithholdingData env companyId dateFrom dateTo p.vendorIds
          let encoded : Except Exc (String × String) :=
            if outputFormat = "dat" then
              generateDat data period company
            else if env.xlsxAvailable = false then
              .error (.userError "xlsxwriter library required for Excel export")
            else
              .ok ("xlsx-bytes", "BIR2307_"
                ++ (if strTruthy company.vat then orEmpty company.vat else "TIN")
                ++ "_" ++ period ++ ".xlsx")
          match encoded with
          | .error e => .error e
          | .ok (content, filename) =>
            .ok ({ fileContent := content
                   filename := filename
                   recordCount := data.records.length
                   totalBase := data.totalBase
                   totalTax := data.totalTax }, companyId)

/-- `BirComplianceTool.execute`: run the body and catch every failure at the
boundary, appending a failure audit record and returning the uniform failure
envelope. -/
def birExecute (env : Env) (w : World) (p : BirParams) :
    ToolResult BirOk × World :=
  match birValidate env p with
  | .ok (okData, companyId) =>
    let w2 := logExecution env.toolRegistry w "generate_bir_2307" companyId
      none 0 .executed
    (.ok okData, w2)
  | .error e =>
    let w2 := logExecution env.toolRegistry w "generate_bir_2307"
      (resolveCompanyId env p.companyId) (some e.message) 0 .executed
    (.err e.message e.typeName, w2)

/-- A returned trial-balance row. -/
structure TBRow where
  accountId : Nat
  code : String
  name : String
  accountType : String
  internalGroup : String
  debit : ℚ
  credit : ℚ
  balance : ℚ
  groupId : Option Nat := none
  groupName : Option String := none
  level : Option Nat := none
deriving DecidableEq, Repr

/-- Account selection domain of `_get_trial_balance` (company membership and
the optional, truthy account-type filter).  The `order='code'` sort does not
affect any aggregated value and is left to the store. -/
def selectAccounts (accounts : List Account) (companyId : Nat)
    (accountTypes : List String) : List Account :=
  accounts.filter (fun a =>
    companyId ∈ a.companyIds &&
      (match accountTypes with
       | [] => true
       | t :: ts => a.accountType ∈ t :: ts))

/-- Hierarchy depth: number of dot-separated segments of the code when it
contains a dot, else 1. -/
def accountLevel (code : String) : Nat :=
  if containsSub code "." then (pySplit code ".").length else 1

/-- The row built for one account in the `_get_trial_balance` loop. -/
def tbRowOf (hierarchy : Bool) (a : Account) (amounts : Amounts) : TBRow :=
  { accountId := a.id
    code := a.code
    name := a.name
    accountType := a.accountType
    internalGroup := a.internalGroup
    debit := amounts.debit
    credit := amounts.credit
    balance := amounts.balance
    groupId := if hierarchy then a.groupId else none
    groupName := if hierarchy then
        (match a.groupId with
         | some _ => a.groupName
         | none => none)
      else none
    level := if hierarchy then some (accountLevel a.code) else none }

/-- One iteration of the `_get_trial_balance` loop: skip a zero-balance
account unless `include_zero`, otherwise append its row and add its amounts
to the running totals. -/
def tbStep (totalsByAccount : Nat → Option Amounts) (hierarchy includeZero : Bool)
    (acc : List TBRow × Amounts) (a : Account) : List TBRow × Amounts :=
  let amounts := (totalsByAccount a.id).getD ⟨0, 0, 0⟩
  if includeZero = false ∧ amounts.balance = 0 then acc
  else
    (acc.1 ++ [tbRowOf hierarchy a amounts],
      ⟨acc.2.debit + amounts.debit, acc.2.credit + amounts.credit,
        acc.2.balance + amounts.balance⟩)

/-- Trial-balance result: rows and their totals. -/
structure TBResult where
  accounts : List TBRow
  totals : Amounts
deriving DecidableEq, Repr

/-- `TrialBalanceTool._get_trial_balance`: select the company's accounts,
join the aggregated per-account amounts (`totalsByAccount` is the SQL result,
missing accounts default to zero), drop zero-balance rows unless requested,
and accumulate the totals over exactly the kept rows. -/
def getTrialBalance (accounts : List Account) (companyId : Nat)
    (totalsByAccount : Nat → Option Amounts) (hierarchy : Bool)
    (accountTypes : List String) (includeZero : Bool) : TBResult :=
  let selected := selectAccounts accounts companyId accountTypes
  let (rows, totals) :=
    selected.foldl (tbStep totalsByAccount hierarchy includeZero) ([], ⟨0, 0, 0⟩)
  { accounts := rows, totals := totals }

/-- Parameters of `get_trial_balance` (typed view of the params dict;
`hierarchy`/`include_zero` carry their `params.get` defaults). -/
structure TbParams where
  companyId : Option Nat := none
  dateFrom : Option DateParam := none
  dateTo : Option DateParam := none
  hierarchy : Bool := true
  accountTypes : List String := []
  includeZero : Bool := false

/-- Success payload of `get_trial_balance` (the data plus the resolved date
range echoed in the metadata). -/
structure TbOk where
  data : TBResult
  dateFrom : Date
  dateTo : Date
deriving DecidableEq, Repr

/-- Body of `TrialBalanceTool.execute` (lines 60–97): company and
feature-flag checks, date parsing with the today / fiscal-year-start
defaults, the range check, and the `_get_trial_balance` query over the
aggregation the ledger store returns (`env.tbTotals`). -/
def tbValidate (env : Env) (p : TbParams) : Except Exc (TbOk × Nat) :=
  let companyId := resolveCompanyId env p.companyId
  match env.companies.find? (fun c => c.id = companyId) with
  | none => .error (.userError ("Company not found: " ++ natDec companyId))
  | some _company =>
    let config := env.configOf companyId
    if config.enableTrialBalance = false then
      .error (.accessError "Trial Balance tool is disabled for this company")
    else
      match parseDate p.dateFrom with
      | .error e => .error e
      | .ok dateFromOpt =>
        match parseDate p.dateTo with
        | .error e => .error e
        | .ok dateToOpt =>
          let dateTo := match dateToOpt with
            | some d => d
            | none => env.today
          let dateFrom := match dateFromOpt with
            | some d => d
            | none => ⟨dateTo.year, 1, 1⟩
          if dateTo.key < dateFrom.key then
            .error (.userError "date_from must be before date_to")
          else
            let result := getTrialBalance env.accounts companyId
              (env.tbTotals companyId dateFrom dateTo) p.hierarchy
              p.accountTypes p.includeZero
            .ok ({ data := result, dateFrom := dateFrom, dateTo := dateTo },
              companyId)

/-- `TrialBalanceTool.execute`: run the body, log the success only when
`log_all_queries` is set, and catch every failure at the boundary, always
appending a failure audit record and returning the uniform failure
envelope. -/
def tbExecute (env : Env) (w : World) (p : TbParams) : ToolResult TbOk × World :=
  match tbValidate env p with
  | .ok (okData, companyId) =>
    let w2 := if (env.configOf companyId).logAllQueries then
        logExecution env.toolRegistry w "get_trial_balance" companyId none 0 .executed
      else w
    (.ok okData, w2)
  | .error e =>
    let w2 := logExecution env.toolRegistry w "get_trial_balance"
      (resolveCompanyId env p.companyId) (some e.message) 0 .executed
    (.err e.message e.typeName, w2)

/-- Modelled from the spec: the addon's data file `data/mcp_finance_tools.xml`
(declared in `__manifest__.py` but not shipped under `src/`) registers the
five tools named in the module description, so a deployed registry contains
these technical names. -/
def registeredFinanceTools : List String :=
  ["get_trial_balance", "create_journal_entry", "run_month_end_step",
    "generate_bir_2307", "get_aging_report"]

/-- Modelled from the spec: the ordered Alpha-Tax-Code keyword table of
§4.3 (keywords of each row, in order, with the row's code; no match defaults
to `WC010`).  Used only to compare `_get_atc` against the spec's rule-table
formulation. -/
def atcRuleTable : List (List String × String) :=
  [(["PROFESSIONAL", "WC010"], "WC010"),
   (["RENTAL", "WC020"], "WC020"),
   (["SERVICE", "WC100"], "WC100"),
   (["GOODS", "WC120"], "WC120")]

/-- Modelled from the spec: the generic ordered-rule-table classifier of
§4.3, returning the first row one of whose keywords occurs in the name, else
the default `WC010`. -/
def classifyByTable (name : String) : List (List String × String) → String
  | [] => "WC010"
  | (kws, code) :: rest =>
    if kws.any (fun k => containsSub name k) then code
    else classifyByTable name rest

/-- Fixture: a company with only a fiscal-year (hard) lock on 2025-01-31. -/
def hardLockCompany : Company :=
  { id := 1, fiscalyearLockDate := some ⟨2025, 1, 31⟩ }

/-- Fixture: a company with only a period (soft) lock on 2025-02-28. -/
def softLockCompany : Company :=
  { id := 1, periodLockDate := some ⟨2025, 2, 28⟩ }

/-- Fixture: a debit move line of 100 on account 101. -/
def mlDebit100 : MoveLine :=
  { accountId := 101, name := "/", debit := 100, credit := 0 }

/-- Fixture: a credit move line of 50 on account 102. -/
def mlCredit50 : MoveLine :=
  { accountId := 102, name := "/", debit := 0, credit := 50 }

/-- Fixture: a bill line whose tax description matches the withholding
description test. -/
def descWhtLine : BillLine :=
  { taxLine := some
      { name := some "WHT 2%"
        description := some "Creditable Withholding Tax"
        amount := 2 }
    balance := -20 }

/-- Fixture: a bill line whose tax matches only the EWT/WC name fallback. -/
def nameWhtLine : BillLine :=
  { taxLine := some
      { name := some "EWT Services"
        description := none
        amount := 2 }
    balance := -10 }

/-- Fixture: a posted vendor bill carrying both of the lines above. -/
def mixedWhtBill : Bill :=
  { companyId := 1, invoiceDate := ⟨2025, 11, 5⟩, partnerId := 7,
    partner := { vat := some "123-456-789", name := some "Acme Supplies" },
    name := "BILL/0001", lines := [descWhtLine, nameWhtLine] }

/-- Fixture: an environment with the journal-entry tool enabled, no approval
flag, a zero threshold, no lock dates, one journal and two accounts. -/
def jeEnv : Env :=
  { currentCompanyId := 1
    companies := [{ id := 1, name := "Acme" }]
    configOf := fun _ =>
      { enableJournalEntry := true, requireApprovalJe := false, maxJeAmount := 0 }
    accounts := [{ id := 101, code := "1000", companyIds := [1] },
                 { id := 102, code := "2000", companyIds := [1] }]
    journals := [{ id := 11, code := "MISC", companyId := 1 }]
    toolRegistry := registeredFinanceTools }

/-- Fixture: the audit record `log_execution` stores for a failed call with
message `boom`, caller state `executed`. -/
def boomLogRec : ExecLogRec :=
  { toolName := "create_journal_entry"
    companyId := 1
    errorMessage := some "boom"
    executionTimeMs := 7
    state := LogState.failed }

/-! ### Helper lemmas -/

theorem strLen_mk (l : List Char) : (String.mk l).length = l.length := rfl

theorem strData_append (s t : String) : (s ++ t).data = s.data ++ t.data := rfl

theorem strLen_append (s t : String) : (s ++ t).length = s.length + t.length := by
  show (s.data ++ t.data).length = s.data.length + t.data.length
  exact List.length_append s.data t.data

theorem spaces_len (k : Nat) : (spaces k).length = k := by
  simp [spaces, strLen_mk]

theorem zeros_len (k : Nat) : (zeros k).length = k := by
  simp [zeros, strLen_mk]

theorem zeros_append (a b : Nat) : zeros a ++ zeros b = zeros (a + b) := by
  show String.mk (List.replicate a '0' ++ List.replicate b '0') = _
  rw [List.append_replicate_replicate]
  rfl

theorem pyLjust_len (s : String) (w : Nat) (h : s.length ≤ w) :
    (pyLjust s w).length = w := by
  rw [pyLjust, strLen_append, spaces_len]
  omega

theorem pyTake_len (s : String) (n : Nat) :
    (pyTake s n).length = min n s.length := by
  simp [pyTake, strLen_mk, List.length_take]

theorem zeroPadLeft_len (w : Nat) (s : String) (h : s.length ≤ w) :
    (zeroPadLeft w s).length = w := by
  rw [zeroPadLeft, strLen_append, zeros_len]
  omega

theorem logExecution_moves (registry : List String) (w : World) (t : String)
    (c : Nat) (e : Option String) (ms : Nat) (st : LogState) :
    (logExecution registry w t c e ms st).moves = w.moves := by
  unfold logExecution
  split <;> rfl

theorem logExecution_logs_mem (registry : List String) (w : World) (t : String)
    (c : Nat) (e : Option String) (ms : Nat) (st : LogState) (r : ExecLogRec)
    (hr : r ∈ (logExecution registry w t c e ms st).logs) :
    r ∈ w.logs ∨ r.state = (if errTruthy e then .failed else st) := by
  unfold logExecution at hr
  split at hr
  · rcases List.mem_append.mp hr with h | h
    · exact Or.inl h
    · rcases List.mem_singleton.mp h with rfl
      exact Or.inr rfl
  · exact Or.inl hr

theorem logExecution_registered (registry : List String) (w : World) (t : String)
    (c : Nat) (e : Option String) (ms : Nat) (st : LogState)
    (hreg : t ∈ registry) :
    ∃ rec1 : ExecLogRec,
      (logExecution registry w t c e ms st).logs = w.logs ++ [rec1] ∧
        rec1.toolName = t ∧ rec1.errorMessage = e ∧
        rec1.state = (if errTruthy e then .failed else st) := by
  unfold logExecution
  rw [if_pos hreg]
  exact ⟨_, rfl, rfl, rfl, rfl⟩

theorem strLen_data (s : String) : s.length = s.data.length := rfl

theorem natDecAux_fuel_inv (n : Nat) :
    ∀ f g : Nat, n < f → n < g → natDecAux f n = natDecAux g n := by
  induction n using Nat.strong_induction_on with
  | _ n ih =>
    intro f g hf hg
    cases f with
    | zero => omega
    | succ f' =>
      cases g with
      | zero => omega
      | succ g' =>
        simp only [natDecAux]
        by_cases h10 : n < 10
        · simp [h10]
        · simp only [if_neg h10]
          have hdiv : n / 10 < n := Nat.div_lt_self (by omega) (by omega)
          rw [ih (n / 10) hdiv f' g' (by omega) (by omega)]

theorem natDec_lt10 (n : Nat) (h : n < 10) : (natDec n).data = [decDigitChar n] := by
  show natDecAux (n + 1) n = _
  simp [natDecAux, h]

theorem natDec_unfold (n : Nat) (h : 10 ≤ n) :
    (natDec n).data = (natDec (n / 10)).data ++ [decDigitChar (n % 10)] := by
  show natDecAux (n + 1) n = _
  simp only [natDecAux, if_neg (by omega : ¬ n < 10)]
  congr 1
  exact natDecAux_fuel_inv (n / 10) n (n / 10 + 1) (by omega) (by omega)

theorem natDec_len_succ (n : Nat) (h : 10 ≤ n) :
    (natDec n).length = (natDec (n / 10)).length + 1 := by
  rw [strLen_data, strLen_data, natDec_unfold n h, List.length_append]
  rfl

theorem natDec_len_lt10 (n : Nat) (h : n < 10) : (natDec n).length = 1 := by
  rw [strLen_data, natDec_lt10 n h]
  rfl

theorem natDec_len_le : ∀ k n : Nat, n < 10 ^ k → 1 ≤ k → (natDec n).length ≤ k := by
  intro k
  induction k with
  | zero => omega
  | succ k ih =>
    intro n h _
    by_cases h10 : n < 10
    · rw [natDec_len_lt10 n h10]
      omega
    · have hk : 1 ≤ k := by
        by_contra hk0
        have : k = 0 := by omega
        subst this
        simp at h
        omega
      have hdiv : n / 10 < 10 ^ k := by
        rw [Nat.div_lt_iff_lt_mul (by omega : 0 < 10)]
        calc n < 10 ^ (k + 1) := h
        _ = 10 ^ k * 10 := by ring
      have := ih (n / 10) hdiv hk
      rw [natDec_len_succ n (by omega)]
      omega

theorem decDigitChar_ne_dot (k : Nat) : decDigitChar k ≠ '.' := by
  unfold decDigitChar
  split <;> decide

theorem natDec_no_dot : ∀ f n : Nat, '.' ∉ natDecAux f n := by
  intro f
  induction f with
  | zero => intro n; simp [natDecAux]
  | succ f ih =>
    intro n
    simp only [natDecAux]
    by_cases h10 : n < 10
    · simp only [if_pos h10, List.mem_singleton]
      exact fun h => decDigitChar_ne_dot n h.symm
    · simp only [if_neg h10, List.mem_append, List.mem_singleton]
      rintro (h | h)
      · exact ih (n / 10) h
      · exact decDigitChar_ne_dot (n % 10) h.symm

theorem removeChar_append (c : Char) (s t : String) :
    removeChar c (s ++ t) = removeChar c s ++ removeChar c t := by
  show String.mk ((s.data ++ t.data).filter _) = _
  rw [List.filter_append]
  rfl

theorem removeChar_of_not_mem (c : Char) (s : String) (h : c ∉ s.data) :
    removeChar c s = s := by
  show String.mk (s.data.filter _) = s
  rw [List.filter_eq_self.mpr]
  intro a ha
  simp only [ne_eq, decide_eq_true_eq]
  exact fun hac => h (hac ▸ ha)

theorem removeChar_zeros (k : Nat) : removeChar '.' (zeros k) = zeros k := by
  apply removeChar_of_not_mem
  intro h
  have := List.eq_of_mem_replicate h
  simp at this

theorem removeChar_natDec (n : Nat) : removeChar '.' (natDec n) = natDec n := by
  apply removeChar_of_not_mem
  exact natDec_no_dot (n + 1) n

theorem removeChar_dot : removeChar '.' "." = "" := by decide

theorem strEq_of_data (s t : String) (h : s.data = t.data) : s = t := by
  cases s
  cases t
  cases h
  rfl

theorem natDec_split100 (a b : Nat) (ha : 0 < a) (hb : b < 100) :
    natDec (a * 100 + b) = natDec a ++ zeroPadLeft 2 (natDec b) := by
  have pad2 : (zeroPadLeft 2 (natDec b)).data = [decDigitChar (b / 10), decDigitChar (b % 10)] := by
    by_cases hb10 : b < 10
    · have h1 : (natDec b).data = [decDigitChar b] := natDec_lt10 b hb10
      have hlen : (natDec b).length = 1 := natDec_len_lt10 b hb10
      show (zeros (2 - (natDec b).length)).data ++ (natDec b).data = _
      rw [hlen, h1]
      have : b / 10 = 0 := by omega
      rw [this]
      have : b % 10 = b := by omega
      rw [this]
      rfl
    · have hdiv : b / 10 < 10 := by omega
      have h1 : (natDec b).data = (natDec (b / 10)).data ++ [decDigitChar (b % 10)] :=
        natDec_unfold b (by omega)
      have h2 : (natDec (b / 10)).data = [decDigitChar (b / 10)] := natDec_lt10 _ hdiv
      have hlen : (natDec b).length = 2 := by
        rw [natDec_len_succ b (by omega), natDec_len_lt10 _ hdiv]
      show (zeros (2 - (natDec b).length)).data ++ (natDec b).data = _
      rw [hlen, h1, h2]
      rfl
  apply strEq_of_data
  rw [strData_append, pad2]
  have h1 : (natDec (a * 100 + b)).data
      = (natDec ((a * 100 + b) / 10)).data ++ [decDigitChar ((a * 100 + b) % 10)] :=
    natDec_unfold _ (by omega)
  have e1 : (a * 100 + b) / 10 = a * 10 + b / 10 := by omega
  have e2 : (a * 100 + b) % 10 = b % 10 := by omega
  have h2 : (natDec (a * 10 + b / 10)).data
      = (natDec ((a * 10 + b / 10) / 10)).data ++ [decDigitChar ((a * 10 + b / 10) % 10)] :=
    natDec_unfold _ (by omega)
  have e3 : (a * 10 + b / 10) / 10 = a := by omega
  have e4 : (a * 10 + b / 10) % 10 = b / 10 := by omega
  rw [h1, e1, e2, h2, e3, e4, List.append_assoc]
  rfl

theorem str_empty_append (s : String) : "" ++ s = s := by
  apply strEq_of_data
  rfl

theorem str_append_empty (s : String) : s ++ "" = s := by
  apply strEq_of_data
  show s.data ++ [] = s.data
  exact List.append_nil s.data

theorem strAppend_assoc (a b c : String) : a ++ b ++ c = a ++ (b ++ c) := by
  apply strEq_of_data
  show a.data ++ b.data ++ c.data = a.data ++ (b.data ++ c.data)
  exact List.append_assoc a.data b.data c.data

theorem removeChar_zeroPad_natDec (k m : Nat) :
    removeChar '.' (zeroPadLeft k (natDec m)) = zeroPadLeft k (natDec m) := by
  rw [zeroPadLeft, removeChar_append, removeChar_zeros, removeChar_natDec]

theorem centsOf_nonneg (q : ℚ) (hq : 0 ≤ q) : 0 ≤ centsOf q := by
  rw [centsOf, round_eq]
  apply Int.le_floor.mpr
  push_cast
  nlinarith

theorem centsOf_natDiv100 (m : Nat) : centsOf ((m : ℚ) / 100) = m := by
  rw [centsOf, div_mul_cancel₀ _ (by norm_num : (100 : ℚ) ≠ 0)]
  exact round_natCast m

theorem zeroPad13_split (n : Nat) (h : n < 10 ^ 13) :
    zeros (11 - (natDec (n / 100)).length)
        ++ (natDec (n / 100) ++ zeroPadLeft 2 (natDec (n % 100)))
      = zeroPadLeft 13 (natDec n) := by
  have hlenF : (zeroPadLeft 2 (natDec (n % 100))).length = 2 :=
    zeroPadLeft_len 2 _ (natDec_len_le 2 (n % 100) (by omega) (by norm_num))
  by_cases h100 : 100 ≤ n
  · have hsplit : natDec n = natDec (n / 100) ++ zeroPadLeft 2 (natDec (n % 100)) := by
      conv_lhs => rw [show n = n / 100 * 100 + n % 100 from by omega]
      exact natDec_split100 (n / 100) (n % 100) (by omega) (by omega)
    conv_rhs => rw [zeroPadLeft]
    rw [hsplit, strLen_append, hlenF]
    have harith : 13 - ((natDec (n / 100)).length + 2)
        = 11 - (natDec (n / 100)).length := by omega
    rw [harith]
  · have h0 : n / 100 = 0 := by omega
    have hmod : n % 100 = n := by omega
    have hI : natDec (n / 100) = "0" := by
      rw [h0]
      apply strEq_of_data
      rw [natDec_lt10 0 (by omega)]
      rfl
    rw [hmod, hI]
    have hlen0 : ("0" : String).length = 1 := rfl
    rw [hlen0]
    have hz : ("0" : String) = zeros 1 := rfl
    by_cases h10 : n < 10
    · have hnlen1 : (natDec n).length = 1 := natDec_len_lt10 n h10
      have hF : zeroPadLeft 2 (natDec n) = zeros 1 ++ natDec n := by
        rw [zeroPadLeft, hnlen1]
      have hR : zeroPadLeft 13 (natDec n) = zeros 12 ++ natDec n := by
        rw [zeroPadLeft, hnlen1]
      rw [hF, hR, hz]
      simp only [← strAppend_assoc]
      rw [zeros_append, zeros_append]
    · have hnlen2 : (natDec n).length = 2 := by
        rw [natDec_len_succ n (by omega), natDec_len_lt10 (n / 10) (by omega)]
      have hz0 : zeros 0 = "" := rfl
      have hF : zeroPadLeft 2 (natDec n) = natDec n := by
        rw [zeroPadLeft, hnlen2]
        show zeros 0 ++ natDec n = natDec n
        rw [hz0, str_empty_append]
      have hR : zeroPadLeft 13 (natDec n) = zeros 11 ++ natDec n := by
        rw [zeroPadLeft, hnlen2]
      rw [hF, hR, hz]
      simp only [← strAppend_assoc]
      rw [zeros_append]

theorem datAmountField_eq (q : ℚ) (hq : 0 ≤ q)
    (hlt : (centsOf q).toNat < 10 ^ 13) :
    datAmountField q = zeroPadLeft 13 (natDec (centsOf q).toNat) ++ " " := by
  have hc0 : 0 ≤ centsOf q := centsOf_nonneg q hq
  have hnabs : (centsOf q).natAbs = (centsOf q).toNat := by omega
  rw [datAmountField, pyFmt014_2]
  simp only [if_neg (not_lt.mpr hc0), hnabs]
  rw [str_empty_append]
  have hlen0 : ("" : String).length = 0 := rfl
  rw [hlen0]
  set n := (centsOf q).toNat with hn
  have hdivlt : n / 100 < 10 ^ 11 := by
    have h13 : (10 : ℕ) ^ 13 = 10000000000000 := by norm_num
    have h11 : (10 : ℕ) ^ 11 = 100000000000 := by norm_num
    omega
  have hlenI : (natDec (n / 100)).length ≤ 11 :=
    natDec_len_le 11 (n / 100) hdivlt (by norm_num)
  have hlenF : (zeroPadLeft 2 (natDec (n % 100))).length = 2 :=
    zeroPadLeft_len 2 _ (natDec_len_le 2 (n % 100) (by omega) (by norm_num))
  have hbodylen :
      (natDec (n / 100) ++ "." ++ zeroPadLeft 2 (natDec (n % 100))).length
        = (natDec (n / 100)).length + 3 := by
    rw [strLen_append, strLen_append, hlenF]
    rfl
  rw [zeroPadLeft, hbodylen]
  rw [removeChar_append, removeChar_zeros, removeChar_append, removeChar_append,
    removeChar_natDec, removeChar_dot, removeChar_zeroPad_natDec, str_append_empty]
  have hstriplen :
      (zeros (14 - ((natDec (n / 100)).length + 3))
        ++ (natDec (n / 100) ++ zeroPadLeft 2 (natDec (n % 100)))).length = 13 := by
    rw [strLen_append, strLen_append, zeros_len, hlenF]
    omega
  rw [pyLjust, hstriplen]
  have hsp1 : spaces (14 - 13) = " " := rfl
  rw [hsp1]
  congr 1
  have harith : 14 - ((natDec (n / 100)).length + 3) = 11 - (natDec (n / 100)).length := by
    omega
  rw [harith]
  exact zeroPad13_split n hlt

theorem tbFold_hoist (T : Nat → Option Amounts) (hier z : Bool) :
    ∀ (as : List Account) (rows : List TBRow) (tot : Amounts),
      as.foldl (tbStep T hier z) (rows, tot) =
        (rows ++ (as.foldl (tbStep T hier z) ([], ⟨0, 0, 0⟩)).1,
          ⟨tot.debit + (as.foldl (tbStep T hier z) ([], ⟨0, 0, 0⟩)).2.debit,
            tot.credit + (as.foldl (tbStep T hier z) ([], ⟨0, 0, 0⟩)).2.credit,
            tot.balance + (as.foldl (tbStep T hier z) ([], ⟨0, 0, 0⟩)).2.balance⟩) := by
  intro as
  induction as with
  | nil =>
    intro rows tot
    simp [List.foldl]
  | cons a as ih =>
    intro rows tot
    rw [List.foldl_cons, List.foldl_cons]
    by_cases hc : z = false ∧ ((T a.id).getD ⟨0, 0, 0⟩).balance = 0
    · have hs1 : tbStep T hier z (rows, tot) a = (rows, tot) := by
        unfold tbStep
        rw [if_pos hc]
      have hs2 : tbStep T hier z ([], ⟨0, 0, 0⟩) a = ([], ⟨0, 0, 0⟩) := by
        unfold tbStep
        rw [if_pos hc]
      rw [hs1, hs2, ih rows tot]
    · have hs1 : tbStep T hier z (rows, tot) a =
          (rows ++ [tbRowOf hier a ((T a.id).getD ⟨0, 0, 0⟩)],
            ⟨tot.debit + ((T a.id).getD ⟨0, 0, 0⟩).debit,
              tot.credit + ((T a.id).getD ⟨0, 0, 0⟩).credit,
              tot.balance + ((T a.id).getD ⟨0, 0, 0⟩).balance⟩) := by
        unfold tbStep
        rw [if_neg hc]
      have hs2 : tbStep T hier z ([], ⟨0, 0, 0⟩) a =
          ([tbRowOf hier a ((T a.id).getD ⟨0, 0, 0⟩)],
            ⟨0 + ((T a.id).getD ⟨0, 0, 0⟩).debit,
              0 + ((T a.id).getD ⟨0, 0, 0⟩).credit,
              0 + ((T a.id).getD ⟨0, 0, 0⟩).balance⟩) := by
        unfold tbStep
        rw [if_neg hc]
        rfl
      rw [hs1, hs2, ih (rows ++ [tbRowOf hier a ((T a.id).getD ⟨0, 0, 0⟩)]) _,
        ih [tbRowOf hier a ((T a.id).getD ⟨0, 0, 0⟩)] _]
      simp [List.append_assoc, add_assoc]

theorem tbFold_totals (T : Nat → Option Amounts) (hier z : Bool) :
    ∀ as : List Account,
      (as.foldl (tbStep T hier z) ([], ⟨0, 0, 0⟩)).2.debit
          = (((as.foldl (tbStep T hier z) ([], ⟨0, 0, 0⟩)).1.map TBRow.debit).sum)
        ∧ (as.foldl (tbStep T hier z) ([], ⟨0, 0, 0⟩)).2.credit
          = (((as.foldl (tbStep T hier z) ([], ⟨0, 0, 0⟩)).1.map TBRow.credit).sum)
        ∧ (as.foldl (tbStep T hier z) ([], ⟨0, 0, 0⟩)).2.balance
          = (((as.foldl (tbStep T hier z) ([], ⟨0, 0, 0⟩)).1.map TBRow.balance).sum) := by
  intro as
  induction as with
  | nil => simp [List.foldl]
  | cons a as ih =>
    rw [List.foldl_cons]
    by_cases hc : z = false ∧ ((T a.id).getD ⟨0, 0, 0⟩).balance = 0
    · have hs : tbStep T hier z ([], ⟨0, 0, 0⟩) a = ([], ⟨0, 0, 0⟩) := by
        unfold tbStep
        rw [if_pos hc]
      rw [hs]
      exact ih
    · have hs : tbStep T hier z ([], ⟨0, 0, 0⟩) a =
          ([tbRowOf hier a ((T a.id).getD ⟨0, 0, 0⟩)],
            ⟨0 + ((T a.id).getD ⟨0, 0, 0⟩).debit,
              0 + ((T a.id).getD ⟨0, 0, 0⟩).credit,
              0 + ((T a.id).getD ⟨0, 0, 0⟩).balance⟩) := by
        unfold tbStep
        rw [if_neg hc]
        rfl
      rw [hs, tbFold_hoist T hier z as [tbRowOf hier a ((T a.id).getD ⟨0, 0, 0⟩)] _]
      refine ⟨?_, ?_, ?_⟩ <;>
        simp [tbRowOf, ih.1, ih.2.1, ih.2.2, add_assoc]

theorem jeValidate_ok_inv (env : Env) (p : JeParams) (v : ValidatedJe)
    (h : jeValidate env p = .ok v) :
    env.companies.find? (fun c => c.id = v.companyId) = some v.company
    ∧ checkPeriodLock v.company env.userIsAccountManager v.jeDate = .ok ()
    ∧ (∃ lines, p.lines = some lines
        ∧ buildMoveLines env v.companyId 0 lines = .ok v.moveLines)
    ∧ validateBalance v.moveLines = .ok () := by
  simp only [jeValidate] at h
  repeat' split at h
  any_goals simp at h
  all_goals subst h
  all_goals exact ⟨by assumption, by assumption, ⟨_, by assumption, by assumption⟩,
    by assumption⟩

theorem buildMoveLines_cons_inv (env : Env) (cid i : Nat) (line : JeLine)
    (rest : List JeLine) (mls : List MoveLine)
    (h : buildMoveLines env cid i (line :: rest) = .ok mls) :
    ¬(line.debit < 0 ∨ line.credit < 0)
    ∧ ¬(0 < line.debit ∧ 0 < line.credit)
    ∧ ¬(line.debit = 0 ∧ line.credit = 0)
    ∧ ∃ tl, buildMoveLines env cid (i + 1) rest = .ok tl
        ∧ ∃ hd, mls = hd :: tl ∧ hd.debit = line.debit ∧ hd.credit = line.credit := by
  simp only [buildMoveLines] at h
  repeat' split at h
  any_goals simp at h
  all_goals subst h
  all_goals exact ⟨by assumption, by assumption, by assumption,
    ⟨_, by assumption, ⟨_, rfl, rfl, rfl⟩⟩⟩

theorem buildMoveLines_ok_lines (env : Env) (cid : Nat) :
    ∀ (lines : List JeLine) (i : Nat) (mls : List MoveLine),
      buildMoveLines env cid i lines = .ok mls →
      ∀ ml ∈ mls,
        (0 < ml.debit ∧ ml.credit = 0) ∨ (0 < ml.credit ∧ ml.debit = 0) := by
  intro lines
  induction lines with
  | nil =>
    intro i mls h ml hml
    simp only [buildMoveLines] at h
    simp at h
    subst h
    simp at hml
  | cons line rest ih =>
    intro i mls h ml hml
    obtain ⟨hneg, hboth, hzero, tl, htl, hd, rfl, hdd, hdc⟩ :=
      buildMoveLines_cons_inv env cid i line rest mls h
    push_neg at hneg hboth hzero
    rcases List.mem_cons.mp hml with rfl | hml2
    · rw [hdd, hdc]
      by_cases hdz : line.debit = 0
      · right
        have hcne : line.credit ≠ 0 := hzero hdz
        exact ⟨lt_of_le_of_ne hneg.2 (Ne.symm hcne), hdz⟩
      · left
        have hdpos : 0 < line.debit := lt_of_le_of_ne hneg.1 (Ne.symm hdz)
        have hcle : line.credit ≤ 0 := hboth hdpos
        exact ⟨hdpos, le_antisymm hcle hneg.2⟩
    · exact ih (i + 1) tl htl ml hml2

theorem buildMoveLines_error_type (env : Env) (cid : Nat) :
    ∀ (lines : List JeLine) (i : Nat) (e : Exc),
      buildMoveLines env cid i lines = .error e → e.typeName = "UserError" := by
  intro lines
  induction lines with
  | nil =>
    intro i e h
    simp [buildMoveLines] at h
  | cons line rest ih =>
    intro i e h
    simp only [buildMoveLines] at h
    repeat' split at h
    any_goals simp at h
    all_goals subst h
    all_goals first
      | rfl
      | exact ih (i + 1) _ (by assumption)

theorem jeExecute_cases (env : Env) (w : World) (p : JeParams) :
    (∃ v, jeValidate env p = .ok v ∧
      jeExecute env w p = (.ok (jeFinish env w v).1, (jeFinish env w v).2))
    ∨ (∃ e, jeValidate env p = .error e ∧
      jeExecute env w p = (.err e.message e.typeName,
        logExecution env.toolRegistry w "create_journal_entry"
          (resolveCompanyId env p.companyId) (some e.message) 0 .executed)) := by
  cases hv : jeValidate env p with
  | ok v =>
    left
    exact ⟨v, rfl, by simp [jeExecute, hv]⟩
  | error e =>
    right
    exact ⟨e, rfl, by simp [jeExecute, hv]⟩

theorem jeFinish_world (env : Env) (w : World) (v : ValidatedJe) :
    ∃ mv : MoveRec,
      (jeFinish env w v).2.moves = w.moves ++ [mv] ∧ mv.lines = v.moveLines
      ∧ (jeFinish env w v).1.requiresApproval = v.requiresApproval := by
  refine ⟨{ id := w.nextMoveId
            name := "/"
            companyId := v.companyId
            journalId := v.journal.id
            date := v.jeDate
            ref := v.refText
            lines := v.moveLines
            state := if (v.autoPost && !v.requiresApproval) = true then "posted" else "draft"
            moveType := "entry" }, ?_, rfl, rfl⟩
  show (logExecution _ _ _ _ _ _ _).moves = _
  rw [logExecution_moves]

/-! ### Claim theorems -/

/-- C7: parsing `YYYY-QN` with N in 1..4 (and a year `datetime.date` accepts)
yields date_from = first day of the quarter's start month (month `3N-2`) and
date_to = the last calendar day of the end month (month `3N`); concretely
`2025-Q4` gives 2025-10-01..2025-12-31 and `2025-Q1` gives
2025-01-01..2025-03-31, while any other quarter number such as `2025-Q5`
fails as an invalid-argument `UserError`. -/
theorem parse_quarter_spec :
    (∀ (s ys qs : String) (y q : Nat),
      pySplit s "-Q" = [ys, qs] → pyInt ys = some y → pyInt qs = some q →
      1 ≤ q → q ≤ 4 → 1 ≤ y → y ≤ 9999 →
      parseQuarter s = .ok (⟨y, 3 * q - 2, 1⟩, ⟨y, 3 * q, monthLastDay y (3 * q)⟩))
    ∧ parseQuarter "2025-Q4" = .ok (⟨2025, 10, 1⟩, ⟨2025, 12, 31⟩)
    ∧ parseQuarter "2025-Q1" = .ok (⟨2025, 1, 1⟩, ⟨2025, 3, 31⟩)
    ∧ parseQuarter "2025-Q5" = .error (.userError (invalidPeriodMsg "2025-Q5"))
    ∧ (∀ (s ys qs : String) (y q : Nat),
      pySplit s "-Q" = [ys, qs] → pyInt ys = some y → pyInt qs = some q →
      (q < 1 ∨ 4 < q) →
      parseQuarter s = .error (.userError (invalidPeriodMsg s))) := by
  refine ⟨?_, by decide, by decide, by decide, ?_⟩
  · intro s ys qs y q hsplit hy hq h1 h4 hy1 hy2
    simp only [parseQuarter, hsplit, hy, hq]
    rw [if_neg (by omega), if_neg (by omega)]
    interval_cases q <;> simp [quarterMonths, monthLastDay]
  · intro s ys qs y q hsplit hy hq hbad
    simp only [parseQuarter, hsplit, hy, hq]
    rw [if_pos (by omega)]

/-- Witness for C7: the general part applied to the concrete period
`2024-Q2`. -/
theorem parse_quarter_spec_witness :
    parseQuarter "2024-Q2" = .ok (⟨2024, 4, 1⟩, ⟨2024, 6, monthLastDay 2024 6⟩) :=
  parse_quarter_spec.1 "2024-Q2" "2024" "2" 2024 2 (by decide) (by decide)
    (by decide) (by decide) (by decide) (by decide) (by decide)

/-- C9: `_get_atc` implements exactly the spec's ordered keyword table
applied to the upper-cased tax name (default `WC010`); in particular
`Rental Income Tax` classifies as `WC020` and `Misc Fee` falls through to
the default `WC010`. -/
theorem atc_classification :
    (∀ t : Option TaxRec,
      getAtc t = classifyByTable (upperStr (orEmpty (t.bind TaxRec.name))) atcRuleTable)
    ∧ getAtc (some { name := some "Rental Income Tax" }) = "WC020"
    ∧ getAtc (some { name := some "Misc Fee" }) = "WC010" := by
  refine ⟨?_, by decide, by decide⟩
  intro t
  cases t with
  | none => decide
  | some tx =>
    cases ht : tx.name with
    | none =>
      simp only [getAtc, ht, Option.bind]
      decide
    | some nm =>
      simp only [getAtc, ht, Option.bind, orEmpty, classifyByTable, atcRuleTable,
        List.any_cons, List.any_nil, Bool.or_false]

/-- C10: every audit record appended by `log_execution` with a truthy (non-
empty) error message is stored with state `failed`, regardless of the state
the caller passed; hence no stored record carrying an error message has
state pending, approved, executed, or rejected. -/
theorem log_error_forces_failed_state (registry : List String) (w : World)
    (toolName : String) (companyId : Nat) (error : Option String)
    (ms : Nat) (st : LogState) (r : ExecLogRec)
    (herr : errTruthy error = true)
    (hr : r ∈ (logExecution registry w toolName companyId error ms st).logs) :
    r ∈ w.logs ∨ r.state = .failed := by
  rcases logExecution_logs_mem registry w toolName companyId error ms st r hr with h | h
  · exact Or.inl h
  · right
    rw [h, if_pos herr]

/-- Witness for C10: a concrete failed append into an empty log, with caller
state `executed`, yields the `failed` record. -/
theorem log_error_forces_failed_state_witness :
    boomLogRec ∈ (({} : World)).logs ∨ boomLogRec.state = .failed :=
  log_error_forces_failed_state registeredFinanceTools {} "create_journal_entry" 1
    (some "boom") 7 .executed boomLogRec (by decide) (by decide)

/-- C2 (code evaluation at the failing input): with `require_approval_je`
off and `max_je_amount = 0`, a journal entry of total debit 100 is computed
as not requiring approval — the amount check is skipped for a zero
threshold, contradicting the field's own help text and the spec's
"threshold of 0 means always require approval".  The flag and a positive
exceeded threshold do force approval. -/
theorem max_je_threshold_zero_no_approval :
    requiresApprovalCalc { requireApprovalJe := false, maxJeAmount := 0 } 100 = false
    ∧ requiresApprovalCalc { requireApprovalJe := true, maxJeAmount := 0 } 100 = true
    ∧ requiresApprovalCalc { requireApprovalJe := false, maxJeAmount := 50 } 100 = true := by
  refine ⟨by decide, by decide, by decide⟩

/-- C5: the trial-balance totals are the column-wise sums over exactly the
returned rows (computed after the zero-balance filter), for every account
list, aggregation map, hierarchy flag, type filter and include_zero
setting. -/
theorem trial_balance_totals (accounts : List Account) (companyId : Nat)
    (T : Nat → Option Amounts) (hierarchy : Bool) (accountTypes : List String)
    (includeZero : Bool) :
    (getTrialBalance accounts companyId T hierarchy accountTypes includeZero).totals.debit
      = ((getTrialBalance accounts companyId T hierarchy accountTypes includeZero).accounts.map
          TBRow.debit).sum
    ∧ (getTrialBalance accounts companyId T hierarchy accountTypes includeZero).totals.credit
      = ((getTrialBalance accounts companyId T hierarchy accountTypes includeZero).accounts.map
          TBRow.credit).sum
    ∧ (getTrialBalance accounts companyId T hierarchy accountTypes includeZero).totals.balance
      = ((getTrialBalance accounts companyId T hierarchy accountTypes includeZero).accounts.map
          TBRow.balance).sum :=
  tbFold_totals T hierarchy includeZero (selectAccounts accounts companyId accountTypes)

/-- C3 counterexample: with only the hard (fiscal-year) lock set and an
elevated (account-manager) identity, a date on/before the lock is rejected —
but the rejection is raised as `UserError`, the class the tool otherwise uses
for invalid arguments, not as the access-denied class (`AccessError`, the one
raised when a tool is disabled); so "fails as AccessDenied" does not hold of
the code. -/
theorem period_lock_not_access_denied_cex :
    checkPeriodLock hardLockCompany true ⟨2025, 1, 15⟩
        = .error (.userError "Period is locked. Fiscal year lock date: 2025-01-31")
    ∧ Exc.typeName (.userError "Period is locked. Fiscal year lock date: 2025-01-31")
        ≠ "AccessError" :=
  ⟨by decide, by decide⟩

/-- C3 (amended): a date on/before the fiscal-year (hard) lock is rejected
for every identity; a date only on/before the period (soft) lock is rejected
unless the identity holds the account-manager group, in which case the call
is allowed — but every such rejection is raised as a `UserError` (reported as
error_type `UserError` in the envelope), not as the access-denied exception
class.  Accepted journal-entry creations always passed this check. -/
theorem period_lock_policy (c : Company) (isManager : Bool) (d : Date) :
    (checkPeriodLock c isManager d = .ok ()
      ↔ (hardLocked c d = false ∧ (softLocked c d = false ∨ isManager = true)))
    ∧ (∀ e, checkPeriodLock c isManager d = .error e → e.typeName = "UserError")
    ∧ (∀ (env : Env) (p : JeParams) (v : ValidatedJe), jeValidate env p = .ok v →
        checkPeriodLock v.company env.userIsAccountManager v.jeDate = .ok ()) := by
  refine ⟨?_, ?_, fun env p v hv => (jeValidate_ok_inv env p v hv).2.1⟩
  · unfold checkPeriodLock hardLocked softLocked
    cases hf : c.fiscalyearLockDate with
    | none =>
      cases hp : c.periodLockDate with
      | none => simp
      | some pl =>
        by_cases hdk : d.key ≤ pl.key <;> cases hm : isManager <;> simp [hdk]
    | some fl =>
      by_cases hfl : d.key ≤ fl.key
      · simp [hfl]
      · cases hp : c.periodLockDate with
        | none => simp [hfl]
        | some pl =>
          by_cases hdk : d.key ≤ pl.key <;> cases hm : isManager <;> simp [hfl, hdk]
  · intro e he
    unfold checkPeriodLock at he
    cases hf : c.fiscalyearLockDate with
    | none =>
      rw [hf] at he
      cases hp : c.periodLockDate with
      | none =>
        rw [hp] at he
        simp at he
      | some pl =>
        rw [hp] at he
        by_cases hdk : d.key ≤ pl.key ∧ isManager = false
        · simp only [] at he
          rw [if_pos hdk] at he
          injection he with he
          subst he
          rfl
        · simp only [] at he
          rw [if_neg hdk] at he
          simp at he
    | some fl =>
      rw [hf] at he
      by_cases hfl : d.key ≤ fl.key
      · simp only [] at he
        rw [if_pos hfl] at he
        injection he with he
        subst he
        rfl
      · simp only [] at he
        rw [if_neg hfl] at he
        cases hp : c.periodLockDate with
        | none =>
          rw [hp] at he
          simp at he
        | some pl =>
          rw [hp] at he
          by_cases hdk : d.key ≤ pl.key ∧ isManager = false
          · simp only [] at he
            rw [if_pos hdk] at he
            injection he with he
            subst he
            rfl
          · simp only [] at he
            rw [if_neg hdk] at he
            simp at he

/-- Witness for C3: the rejection produced at a concrete soft-locked date for
a non-elevated identity is typed `UserError`. -/
theorem period_lock_policy_witness :
    Exc.typeName (.userError "Period is locked for non-advisers. Lock date: 2025-02-28")
      = "UserError" :=
  (period_lock_policy softLockCompany false ⟨2025, 2, 10⟩).2.1
    (.userError "Period is locked for non-advisers. Lock date: 2025-02-28") (by decide)

/-- C8 counterexample: in a bill where one line matches the withholding
description test and a second line matches only the EWT/WC name fallback,
the fallback line is not selected — refuting "lines satisfying the fallback
name test are included even when another line of the same bill matches the
description test". -/
theorem wht_fallback_line_excluded_cex :
    isNameWht nameWhtLine = true
    ∧ nameWhtLine ∈ mixedWhtBill.lines
    ∧ isDescWht descWhtLine = true
    ∧ nameWhtLine ∉ whtLinesOfBill mixedWhtBill :=
  ⟨by decide, by decide, by decide, by decide⟩

/-- C8 (amended): a line of a bill is selected as a withholding line iff
its tax description contains `withholding` (case-insensitively), or — only
when no line of the bill passes that description test — its tax name
contains `EWT` or `WC`; the name fallback is a per-bill fallback, so a
fallback-only line is dropped whenever any line of the same bill matches the
description test. -/
theorem wht_line_selection (b : Bill) (l : BillLine) :
    l ∈ whtLinesOfBill b
      ↔ ((l ∈ b.lines ∧ isDescWht l = true)
        ∨ ((∀ x ∈ b.lines, isDescWht x = false) ∧ l ∈ b.lines ∧ isNameWht l = true)) := by
  unfold whtLinesOfBill
  cases hd : b.lines.filter isDescWht with
  | nil =>
    have hall : ∀ x ∈ b.lines, isDescWht x = false := by
      intro x hx
      have h := List.filter_eq_nil.mp hd x hx
      revert h
      cases isDescWht x <;> simp
    constructor
    · intro hm
      rcases List.mem_filter.mp hm with ⟨hm1, hm2⟩
      exact Or.inr ⟨hall, hm1, hm2⟩
    · rintro (⟨hm1, hm2⟩ | ⟨_, hm1, hm2⟩)
      · rw [hall l hm1] at hm2
        cases hm2
      · exact List.mem_filter.mpr ⟨hm1, hm2⟩
  | cons y ys =>
    have hy : y ∈ b.lines.filter isDescWht := by
      rw [hd]
      exact List.mem_cons_self y ys
    constructor
    · intro hm
      have hm2 : l ∈ b.lines.filter isDescWht := by
        rw [hd]
        exact hm
      rcases List.mem_filter.mp hm2 with ⟨h1, h2⟩
      exact Or.inl ⟨h1, h2⟩
    · rintro (⟨h1, h2⟩ | ⟨hall, h1, h2⟩)
      · have : l ∈ b.lines.filter isDescWht := List.mem_filter.mpr ⟨h1, h2⟩
        rw [hd] at this
        exact this
      · rcases List.mem_filter.mp hy with ⟨hy1, hy2⟩
        rw [hall y hy1] at hy2
        cases hy2

theorem pyFmt05_2_len (q : ℚ) (hq : 0 ≤ q) (h : (centsOf q).toNat < 10 ^ 4) :
    (pyFmt05_2 q).length = 5 := by
  have hc0 : 0 ≤ centsOf q := centsOf_nonneg q hq
  have hnabs : (centsOf q).natAbs = (centsOf q).toNat := by omega
  simp only [pyFmt05_2, if_neg (not_lt.mpr hc0), hnabs]
  rw [str_empty_append]
  have hlen0 : ("" : String).length = 0 := rfl
  rw [hlen0]
  set n := (centsOf q).toNat with hn
  have hdiv : n / 100 < 10 ^ 2 := by
    have h4 : (10 : ℕ) ^ 4 = 10000 := by norm_num
    have h2 : (10 : ℕ) ^ 2 = 100 := by norm_num
    omega
  have hlenI : (natDec (n / 100)).length ≤ 2 :=
    natDec_len_le 2 (n / 100) hdiv (by norm_num)
  apply zeroPadLeft_len
  rw [strLen_append, strLen_append,
    zeroPadLeft_len 2 _ (natDec_len_le 2 (n % 100) (by omega) (by norm_num))]
  have hdot : ("." : String).length = 1 := rfl
  rw [hdot]
  omega

theorem datAmountField_len (q : ℚ) (hq : 0 ≤ q)
    (hlt : (centsOf q).toNat < 10 ^ 13) :
    (datAmountField q).length = 14 := by
  rw [datAmountField_eq q hq hlt, strLen_append,
    zeroPadLeft_len 13 _ (natDec_len_le 13 _ hlt (by norm_num))]
  rfl

/-- C4 counterexample: for the amount 100.00 (10000 centavos), the
14-character amount field is the 13-digit zero-padded integer `10000`
followed by one space — not the amount×100 zero-padded across the whole
14-character field, as the claim's "exactly 14 characters holding the
amount × 100 as a zero-padded integer" reads. -/
theorem dat_amount_field_cex :
    datAmountField (((10000 : ℕ) : ℚ) / 100) = "0000000010000 "
    ∧ datAmountField (((10000 : ℕ) : ℚ) / 100) ≠ zeroPadLeft 14 (natDec 10000) := by
  have hc : centsOf (((10000 : ℕ) : ℚ) / 100) = 10000 := centsOf_natDiv100 10000
  have h := datAmountField_eq (((10000 : ℕ) : ℚ) / 100) (by positivity)
    (by rw [hc]; norm_num)
  rw [hc] at h
  exact ⟨by rw [h]; decide, by rw [h]; decide⟩

/-- C4 (amended): the DAT encoder lays each record out in fixed-width fields
concatenated with no delimiter and joins records with CRLF; the vendor-name
field is always exactly 50 characters (an 80-character name is truncated to
its first 50 characters with no padding), the TIN field is always exactly 9
characters (a dash-stripped TIN shorter than 9 is right-padded with spaces),
and, under the in-range bounds, each full line is exactly 217 characters.
The two amount fields are each exactly 14 characters consisting of
amount×100 as a 13-digit zero-padded integer followed by one space (not a
14-digit zero-padded integer). -/
theorem dat_fixed_width_layout :
    (∀ name : String, (pyLjust (pyTake name 50) 50).length = 50)
    ∧ (∀ name : String, name.length = 80 →
        pyLjust (pyTake name 50) 50 = String.mk (name.data.take 50))
    ∧ (∀ tin : String, (datTin tin).length = 9)
    ∧ (∀ tin : String, (removeChar '-' tin).length < 9 →
        datTin tin = removeChar '-' tin ++ spaces (9 - (removeChar '-' tin).length))
    ∧ (∀ q : ℚ, 0 ≤ q → (centsOf q).toNat < 10 ^ 13 →
        datAmountField q = zeroPadLeft 13 (natDec (centsOf q).toNat) ++ " "
        ∧ (datAmountField q).length = 14)
    ∧ (∀ (rp : String) (seq : Nat) (r : WhtRecord),
        rp.length ≤ 6 → seq < 10 ^ 10 → r.atc.length = 5 →
        0 ≤ r.taxRate → (centsOf r.taxRate).toNat < 10 ^ 4 →
        0 ≤ r.baseAmount → (centsOf r.baseAmount).toNat < 10 ^ 13 →
        0 ≤ r.taxAmount → (centsOf r.taxAmount).toNat < 10 ^ 13 →
        (encodeDatLine rp seq r).length = 217)
    ∧ (∀ (data : WhtData) (period : String) (company : Company)
        (ys qs : String) (q : Nat),
        pySplit period "-Q" = [ys, qs] → pyInt qs = some q →
        ∃ fn, generateDat data period company
          = .ok (joinSep "\r\n"
              (encodeDatLines (pyZeroPadNat 2 (q * 3) ++ ys) 1 data.records), fn)) := by
  refine ⟨?_, ?_, ?_, ?_, ?_, ?_, ?_⟩
  · intro name
    apply pyLjust_len
    rw [pyTake_len]
    omega
  · intro name hlen
    have htake : (pyTake name 50).length = 50 := by
      rw [pyTake_len, hlen]
      omega
    rw [pyLjust, htake]
    show pyTake name 50 ++ spaces 0 = _
    have : spaces 0 = "" := rfl
    rw [this, str_append_empty]
    rfl
  · intro tin
    apply pyLjust_len
    rw [pyTake_len]
    omega
  · intro tin hshort
    have htake : pyTake (removeChar '-' tin) 9 = removeChar '-' tin := by
      apply strEq_of_data
      show (removeChar '-' tin).data.take 9 = (removeChar '-' tin).data
      apply List.take_of_length_le
      have : (removeChar '-' tin).data.length = (removeChar '-' tin).length := rfl
      omega
    rw [datTin, htake, pyLjust]
  · intro q hq hlt
    exact ⟨datAmountField_eq q hq hlt, datAmountField_len q hq hlt⟩
  · intro rp seq r hrp hseq hatc hrt hrtc hb hbc ht htc
    unfold encodeDatLine
    rw [strLen_append, strLen_append, strLen_append, strLen_append, strLen_append,
      strLen_append, strLen_append, strLen_append, strLen_append]
    rw [pyLjust_len rp 6 hrp]
    rw [show (pyZeroPadNat 10 seq).length = 10 from
      zeroPadLeft_len 10 _ (natDec_len_le 10 seq hseq (by norm_num))]
    rw [show (pyLjust (datTin r.vendorTin) 9).length = 9 from by
      apply pyLjust_len
      apply le_of_eq
      apply pyLjust_len
      rw [pyTake_len]
      omega]
    rw [show (pyLjust "0000" 4).length = 4 from rfl]
    rw [show (pyLjust (pyTake r.vendorName 50) 50).length = 50 from by
      apply pyLjust_len
      rw [pyTake_len]
      omega]
    rw [show (pyLjust (pyTake r.vendorAddress 100) 100).length = 100 from by
      apply pyLjust_len
      rw [pyTake_len]
      omega]
    rw [pyLjust_len r.atc 5 (le_of_eq hatc)]
    rw [pyFmt05_2_len r.taxRate hrt hrtc]
    rw [datAmountField_len r.baseAmount hb hbc]
    rw [datAmountField_len r.taxAmount ht htc]
  · intro data period company ys qs q hsplit hq
    simp only [generateDat, hsplit, hq]
    exact ⟨_, rfl⟩

/-- Witness for C4: the amount-field part applied at the concrete amount
123.45 (12345 centavos). -/
theorem dat_fixed_width_layout_witness :
    (0 : ℚ) ≤ ((12345 : ℕ) : ℚ) / 100
    ∧ (datAmountField (((12345 : ℕ) : ℚ) / 100)
        = zeroPadLeft 13 (natDec (centsOf (((12345 : ℕ) : ℚ) / 100)).toNat) ++ " "
      ∧ (datAmountField (((12345 : ℕ) : ℚ) / 100)).length = 14) := by
  have h1 : (0 : ℚ) ≤ ((12345 : ℕ) : ℚ) / 100 := by positivity
  have h2 : (centsOf (((12345 : ℕ) : ℚ) / 100)).toNat < 10 ^ 13 := by
    rw [centsOf_natDiv100 12345]
    norm_num
  exact ⟨h1, (dat_fixed_width_layout).2.2.2.2.1 (((12345 : ℕ) : ℚ) / 100) h1 h2⟩

theorem birExecute_cases (env : Env) (w : World) (p : BirParams) :
    (∃ a, birValidate env p = .ok a ∧
      birExecute env w p = (.ok a.1,
        logExecution env.toolRegistry w "generate_bir_2307" a.2 none 0 .executed))
    ∨ (∃ e, birValidate env p = .error e ∧
      birExecute env w p = (.err e.message e.typeName,
        logExecution env.toolRegistry w "generate_bir_2307"
          (resolveCompanyId env p.companyId) (some e.message) 0 .executed)) := by
  cases hv : birValidate env p with
  | ok a =>
    left
    exact ⟨a, rfl, by simp [birExecute, hv]⟩
  | error e =>
    right
    exact ⟨e, rfl, by simp [birExecute, hv]⟩

/-- C1: accepted journal entries satisfy the double-entry invariants — every
built line has exactly one strictly positive side (violations are rejected as
`UserError`, the invalid-argument class), acceptance of the balance check is
exactly `|Σdebit − Σcredit| ≤ 0.01`, an excess difference is rejected as a
`ValidationError` whose message reports both totals and the difference, a
rejected call leaves the move store untouched (no persistence is attempted),
and every accepted call appends exactly one move whose lines satisfy both
invariants. -/
theorem je_validation_invariants :
    (∀ (env : Env) (cid : Nat) (lines : List JeLine) (i : Nat) (mls : List MoveLine),
      buildMoveLines env cid i lines = .ok mls →
      ∀ ml ∈ mls, (0 < ml.debit ∧ ml.credit = 0) ∨ (0 < ml.credit ∧ ml.debit = 0))
    ∧ (∀ (env : Env) (cid : Nat) (lines : List JeLine) (i : Nat) (e : Exc),
      buildMoveLines env cid i lines = .error e → e.typeName = "UserError")
    ∧ (∀ mls : List MoveLine,
      validateBalance mls = .ok () ↔ |sumDebit mls - sumCredit mls| ≤ BALANCE_TOLERANCE)
    ∧ (∀ mls : List MoveLine, BALANCE_TOLERANCE < |sumDebit mls - sumCredit mls| →
      validateBalance mls = .error (.validationError
        (unbalancedMsg (sumDebit mls) (sumCredit mls) |sumDebit mls - sumCredit mls|)))
    ∧ (∀ (env : Env) (w : World) (p : JeParams) (r : ToolResult JeOk) (w2 : World),
      jeExecute env w p = (r, w2) → r.success = false → w2.moves = w.moves)
    ∧ (∀ (env : Env) (w : World) (p : JeParams) (d : JeOk) (w2 : World),
      jeExecute env w p = (.ok d, w2) →
      ∃ mv : MoveRec, w2.moves = w.moves ++ [mv]
        ∧ (∀ ml ∈ mv.lines,
            (0 < ml.debit ∧ ml.credit = 0) ∨ (0 < ml.credit ∧ ml.debit = 0))
        ∧ |sumDebit mv.lines - sumCredit mv.lines| ≤ BALANCE_TOLERANCE) := by
  have hval : ∀ mls : List MoveLine,
      validateBalance mls = .ok () ↔ |sumDebit mls - sumCredit mls| ≤ BALANCE_TOLERANCE := by
    intro mls
    unfold validateBalance
    by_cases hc : BALANCE_TOLERANCE < |sumDebit mls - sumCredit mls|
    · rw [if_pos hc]
      simp [not_le.mpr hc]
    · rw [if_neg hc]
      simp [not_lt.mp hc]
  refine ⟨fun env cid lines i mls h => buildMoveLines_ok_lines env cid lines i mls h,
    fun env cid lines i e h => buildMoveLines_error_type env cid lines i e h,
    hval, ?_, ?_, ?_⟩
  · intro mls hgt
    unfold validateBalance
    rw [if_pos hgt]
  · intro env w p r w2 hexec hfail
    rcases jeExecute_cases env w p with ⟨v, _, heq⟩ | ⟨e, _, heq⟩
    · rw [hexec] at heq
      have h1 : r = .ok (jeFinish env w v).1 := congrArg Prod.fst heq
      rw [h1] at hfail
      simp [ToolResult.success] at hfail
    · rw [hexec] at heq
      have h2 : w2 = logExecution env.toolRegistry w "create_journal_entry"
          (resolveCompanyId env p.companyId) (some e.message) 0 .executed :=
        congrArg Prod.snd heq
      rw [h2, logExecution_moves]
  · intro env w p d w2 hexec
    rcases jeExecute_cases env w p with ⟨v, hv, heq⟩ | ⟨e, _, heq⟩
    · rw [hexec] at heq
      have h2 : w2 = (jeFinish env w v).2 := congrArg Prod.snd heq
      obtain ⟨mv, hmv, hlines, _⟩ := jeFinish_world env w v
      obtain ⟨_, _, ⟨lines, _, hbuild⟩, hbal⟩ := jeValidate_ok_inv env p v hv
      refine ⟨mv, by rw [h2, hmv], ?_, ?_⟩
      · rw [hlines]
        exact buildMoveLines_ok_lines env v.companyId lines 0 v.moveLines hbuild
      · rw [hlines]
        exact (hval v.moveLines).mp hbal
    · rw [hexec] at heq
      have h1 : ToolResult.ok d = ToolResult.err e.message e.typeName :=
        congrArg Prod.fst heq
      simp at h1

/-- Witness for C1: the Unbalanced rejection applied to a concrete pair of
lines with total debit 100 and total credit 50. -/
theorem je_validation_invariants_witness :
    validateBalance [mlDebit100, mlCredit50]
      = .error (.validationError
          (unbalancedMsg (sumDebit [mlDebit100, mlCredit50])
            (sumCredit [mlDebit100, mlCredit50])
            |sumDebit [mlDebit100, mlCredit50] - sumCredit [mlDebit100, mlCredit50]|)) :=
  je_validation_invariants.2.2.2.1 [mlDebit100, mlCredit50] (by
    norm_num [sumDebit, sumCredit, mlDebit100, mlCredit50, BALANCE_TOLERANCE])

theorem tbExecute_cases (env : Env) (w : World) (p : TbParams) :
    (∃ a, tbValidate env p = .ok a ∧ (tbExecute env w p).1 = .ok a.1)
    ∨ (∃ e, tbValidate env p = .error e ∧
      tbExecute env w p = (.err e.message e.typeName,
        logExecution env.toolRegistry w "get_trial_balance"
          (resolveCompanyId env p.companyId) (some e.message) 0 .executed)) := by
  cases hv : tbValidate env p with
  | ok a =>
    left
    exact ⟨a, rfl, by simp [tbExecute, hv]⟩
  | error e =>
    right
    exact ⟨e, rfl, by simp [tbExecute, hv]⟩

/-- C6 counterexample: at a concrete failing journal-entry invocation the
boundary puts the failure kind only in the envelope's `error_type`; the
single appended audit record — all of whose fields the equality exhibits
(the execution-log model has exactly the fields of
`mcp.finance.tool.execution`: tool name, company, error message, duration,
state) — stores only the failure message, and that stored message text does
not contain the kind.  This refutes the claim's "an audit record with the
failure message and kind is emitted": the record carries the message but not
the kind. -/
theorem audit_record_lacks_kind_cex :
    (jeExecute jeEnv {} {}).1 = .err "journal_code is required" "UserError"
    ∧ (jeExecute jeEnv {} {}).2.logs
        = [{ toolName := "create_journal_entry"
             companyId := 1
             errorMessage := some "journal_code is required"
             executionTimeMs := 0
             state := .failed }]
    ∧ containsSub "journal_code is required" "UserError" = false :=
  ⟨by decide, by decide, by decide⟩

/-- C6 (amended): for every invocation of the three tool boundaries in the
addon (trial balance, journal entry, BIR 2307) and every failure raised
inside it, the failure is caught at the boundary and the call returns the
uniform failure envelope `{success:false, error, error_type}` — the boundary
is a total function, so no exception escapes and every call returns either a
success envelope or that failure envelope; provided the invoked tool is
registered (the shipped registry data file registers all of them), the
failure also appends exactly one audit record carrying the failure message.
The failure kind, however, is reported only as the envelope's `error_type`;
the audit record does not store it. -/
theorem tool_boundary_envelope :
    (∀ (env : Env) (w : World) (p : JeParams),
      "create_journal_entry" ∈ env.toolRegistry →
      (jeExecute env w p).1.success = true
      ∨ ∃ msg ty rec1, (jeExecute env w p).1 = .err msg ty
          ∧ (jeExecute env w p).2.logs = w.logs ++ [rec1]
          ∧ rec1.toolName = "create_journal_entry"
          ∧ rec1.errorMessage = some msg)
    ∧ (∀ (env : Env) (w : World) (p : BirParams),
      "generate_bir_2307" ∈ env.toolRegistry →
      (birExecute env w p).1.success = true
      ∨ ∃ msg ty rec1, (birExecute env w p).1 = .err msg ty
          ∧ (birExecute env w p).2.logs = w.logs ++ [rec1]
          ∧ rec1.toolName = "generate_bir_2307"
          ∧ rec1.errorMessage = some msg)
    ∧ (∀ (env : Env) (w : World) (p : TbParams),
      "get_trial_balance" ∈ env.toolRegistry →
      (tbExecute env w p).1.success = true
      ∨ ∃ msg ty rec1, (tbExecute env w p).1 = .err msg ty
          ∧ (tbExecute env w p).2.logs = w.logs ++ [rec1]
          ∧ rec1.toolName = "get_trial_balance"
          ∧ rec1.errorMessage = some msg) := by
  refine ⟨?_, ?_, ?_⟩
  · intro env w p hreg
    rcases jeExecute_cases env w p with ⟨v, _, heq⟩ | ⟨e, _, heq⟩
    · left
      rw [heq]
      rfl
    · right
      obtain ⟨rec1, hlogs, htool, herr, _⟩ := logExecution_registered env.toolRegistry w
        "create_journal_entry" (resolveCompanyId env p.companyId) (some e.message) 0
        .executed hreg
      exact ⟨e.message, e.typeName, rec1, by rw [heq], by rw [heq]; exact hlogs,
        htool, herr⟩
  · intro env w p hreg
    rcases birExecute_cases env w p with ⟨a, _, heq⟩ | ⟨e, _, heq⟩
    · left
      rw [heq]
      rfl
    · right
      obtain ⟨rec1, hlogs, htool, herr, _⟩ := logExecution_registered env.toolRegistry w
        "generate_bir_2307" (resolveCompanyId env p.companyId) (some e.message) 0
        .executed hreg
      exact ⟨e.message, e.typeName, rec1, by rw [heq], by rw [heq]; exact hlogs,
        htool, herr⟩
  · intro env w p hreg
    rcases tbExecute_cases env w p with ⟨a, _, heq⟩ | ⟨e, _, heq⟩
    · left
      rw [heq]
      rfl
    · right
      obtain ⟨rec1, hlogs, htool, herr, _⟩ := logExecution_registered env.toolRegistry w
        "get_trial_balance" (resolveCompanyId env p.companyId) (some e.message) 0
        .executed hreg
      exact ⟨e.message, e.typeName, rec1, by rw [heq], by rw [heq]; exact hlogs,
        htool, herr⟩

/-- Witness for C6: the journal-entry part applied to a concrete call (all
required parameters missing) against the registered-tools environment. -/
theorem tool_boundary_envelope_witness :
    (jeExecute jeEnv {} {}).1.success = true
    ∨ ∃ msg ty rec1, (jeExecute jeEnv {} {}).1 = .err msg ty
        ∧ (jeExecute jeEnv {} {}).2.logs = ({} : World).logs ++ [rec1]
        ∧ rec1.toolName = "create_journal_entry"
        ∧ rec1.errorMessage = some msg :=
  tool_boundary_envelope.1 jeEnv {} {} (by decide)

end McpFinance
